import Mathlib

/-!
Verification of the radsecproxy core (src/radsecproxy.c) against its
natural-language specification.

Modelling conventions:
* a packet buffer is a `List Nat` of byte values;
* MD5 and HMAC-MD5 are external OpenSSL primitives, so they are taken as
  function parameters (`md5 : List Nat → List Nat`,
  `hm : List Nat → List Nat → List Nat` on key and data); the executable
  `testmd5` / `testhmac` below instantiate them in witnesses;
* in-place C buffer updates become pure functions returning the new buffer
  (`spliceAt` models `memcpy` into the middle of a buffer);
* the few C loops whose only non-terminating inputs are rejected by
  `attrvalidate` (a zero attribute-length octet) take an explicit `fuel`
  argument bounding the iteration count; call sites pass a bound that is
  never reached on inputs the C code terminates on.
-/

namespace Radsec

/-- Bytes `[off, off+n)` of a buffer (models reading `n` bytes at pointer
`buf + off`). -/
def readAt (buf : List Nat) (off n : Nat) : List Nat :=
  (buf.drop off).take n

/-- Overwrite the bytes of `buf` starting at `off` with `repl` (models
`memcpy(buf + off, repl, repl.length)`). -/
def spliceAt (buf : List Nat) (off : Nat) (repl : List Nat) : List Nat :=
  buf.take off ++ repl ++ buf.drop (off + repl.length)

/-- The declared RADIUS length: 16-bit big-endian field at bytes 2,3
(the `RADLEN` macro, `ntohs(((uint16_t *)(x))[1])`). -/
def RADLEN (buf : List Nat) : Nat :=
  256 * buf.getD 2 0 + buf.getD 3 0

/-- `ATTRTYPE` macro: first octet of the attribute at `off`. -/
def attrtypeAt (buf : List Nat) (off : Nat) : Nat := buf.getD off 0

/-- `ATTRLEN` macro: second octet of the attribute at `off`. -/
def attrlenAt (buf : List Nat) (off : Nat) : Nat := buf.getD (off + 1) 0

/-- `ATTRVAL` macro: the attribute value starts two octets in. -/
def attrvalOff (off : Nat) : Nat := off + 2

/-- `ATTRVALLEN` macro: `ATTRLEN(x) - 2`. -/
def attrvallenAt (buf : List Nat) (off : Nat) : Nat := attrlenAt buf off - 2

/-! ### User-Password encryption (pwdencrypt / pwddecrypt)

The RFC 2865 MD5-XOR chain, src/radsecproxy.c lines 681-751.  Both loops
work on 16-byte blocks, which we represent as `List (List Nat)`. -/

/-- One block of the MD5-XOR chain: `out[offset+i] = hash[i] ^ in[offset+i]`
for `i < 16` (lines 705-706 / 741-742). -/
def xorblock (hash blk : List Nat) : List Nat :=
  List.zipWith Nat.xor hash blk

/-- The loop of `pwdencrypt` (src/radsecproxy.c:696-711).  `input` is what
the MD5 keystream hashes for the current block (C variable `input`);
`below` is the 16 bytes at `out + offset - 16` at the end of the current
iteration, i.e. the ciphertext block written one iteration earlier — or,
on the very first iteration, the uninitialised memory sitting just below
the local `out` array, because the C code executes
`input = out + offset - 16;` *before* `offset += 16;` (line 707-708). -/
def pwdencryptGo (md5 : List Nat → List Nat) (shared : List Nat) :
    List Nat → List Nat → List (List Nat) → List (List Nat)
  | _, _, [] => []
  | input, below, blk :: rest =>
    let c := xorblock (md5 (shared ++ input)) blk
    c :: pwdencryptGo md5 shared below c rest

/-- `pwdencrypt` (src/radsecproxy.c:681-715) on 16-byte blocks.  `junk`
models the 16 uninitialised bytes just below the local `out` array, which
the second block's keystream reads via `input = out + offset - 16` when
`offset` is still `0`. -/
def pwdencrypt (md5 : List Nat → List Nat) (shared junk auth : List Nat)
    (blocks : List (List Nat)) : List (List Nat) :=
  pwdencryptGo md5 shared auth junk blocks

/-- The loop of `pwddecrypt` (src/radsecproxy.c:732-747).  Here the code
sets `input = in + offset;` before `offset += 16;` (line 743-744), so the
next block's keystream hashes the previous *ciphertext* block, as RFC 2865
prescribes. -/
def pwddecryptGo (md5 : List Nat → List Nat) (shared : List Nat) :
    List Nat → List (List Nat) → List (List Nat)
  | _, [] => []
  | input, blk :: rest =>
    let p := xorblock (md5 (shared ++ input)) blk
    p :: pwddecryptGo md5 shared blk rest

/-- `pwddecrypt` (src/radsecproxy.c:717-751) on 16-byte blocks. -/
def pwddecrypt (md5 : List Nat → List Nat) (shared auth : List Nat)
    (blocks : List (List Nat)) : List (List Nat) :=
  pwddecryptGo md5 shared auth blocks

/-! ### Buffer lemmas -/

theorem length_spliceAt {buf repl : List Nat} {off : Nat}
    (h : off + repl.length ≤ buf.length) :
    (spliceAt buf off repl).length = buf.length := by
  simp only [spliceAt, List.length_append, List.length_take, List.length_drop]
  omega

theorem getElem?_spliceAt {buf repl : List Nat} {off : Nat}
    (h : off + repl.length ≤ buf.length) (i : Nat) :
    (spliceAt buf off repl)[i]? =
      if i < off then buf[i]?
      else if i < off + repl.length then repl[i - off]? else buf[i]? := by
  have hto : (buf.take off).length = off := by
    simp [List.length_take]; omega
  unfold spliceAt
  rw [List.getElem?_append, List.getElem?_append, List.getElem?_drop]
  simp only [List.length_append, hto]
  by_cases h1 : i < off
  · rw [if_pos (by omega), if_pos h1, if_pos h1, List.getElem?_take_of_lt h1]
  · by_cases h2 : i < off + repl.length
    · rw [if_pos (by omega), if_neg h1, if_neg h1, if_pos h2]
    · rw [if_neg (by omega), if_neg h1, if_neg h2]
      congr 1
      omega

theorem getD_spliceAt {buf repl : List Nat} {off : Nat}
    (h : off + repl.length ≤ buf.length) (i : Nat) (d : Nat) :
    (spliceAt buf off repl).getD i d =
      if i < off then buf.getD i d
      else if i < off + repl.length then repl.getD (i - off) d else buf.getD i d := by
  simp only [List.getD_eq_getElem?_getD, getElem?_spliceAt h]
  split <;> [rfl; split <;> rfl]

theorem getElem?_readAt (buf : List Nat) (a n i : Nat) :
    (readAt buf a n)[i]? = if i < n then buf[a + i]? else none := by
  unfold readAt
  by_cases h : i < n
  · rw [List.getElem?_take_of_lt h, List.getElem?_drop]
    simp [h]
  · rw [List.getElem?_take_eq_none (by omega)]
    simp [h]

theorem length_readAt {buf : List Nat} {a n : Nat} (h : a + n ≤ buf.length) :
    (readAt buf a n).length = n := by
  simp only [readAt, List.length_take, List.length_drop]
  omega

theorem RADLEN_spliceAt {buf repl : List Nat} {off : Nat}
    (hoff : 4 ≤ off) (h : off + repl.length ≤ buf.length) :
    RADLEN (spliceAt buf off repl) = RADLEN buf := by
  unfold RADLEN
  rw [getD_spliceAt h, getD_spliceAt h]
  simp only [if_pos (by omega : 2 < off), if_pos (by omega : 3 < off)]

/-- Splicing back what is already there is the identity. -/
theorem spliceAt_readAt_self {buf : List Nat} {off n : Nat}
    (h : off + n ≤ buf.length) :
    spliceAt buf off (readAt buf off n) = buf := by
  have hl : (readAt buf off n).length = n := length_readAt h
  apply List.ext_getElem?
  intro i
  rw [getElem?_spliceAt (by omega)]
  rw [hl]
  rw [getElem?_readAt]
  split
  · rfl
  · split
    · rename_i h1 h2
      rw [if_pos (by omega)]
      congr 1
      omega
    · rfl

/-- Collapsing two splices at the same offset with equal lengths. -/
theorem spliceAt_spliceAt {buf r1 r2 : List Nat} {off : Nat}
    (hlen : r1.length = r2.length) (h : off + r1.length ≤ buf.length) :
    spliceAt (spliceAt buf off r1) off r2 = spliceAt buf off r2 := by
  have h1 : (spliceAt buf off r1).length = buf.length := length_spliceAt h
  apply List.ext_getElem?
  intro i
  rw [getElem?_spliceAt (by omega), getElem?_spliceAt (by omega),
    getElem?_spliceAt (show off + r2.length ≤ buf.length by omega)]
  split_ifs <;> first | rfl | omega

theorem readAt_spliceAt_self {buf repl : List Nat} {off : Nat}
    (h : off + repl.length ≤ buf.length) :
    readAt (spliceAt buf off repl) off repl.length = repl := by
  have h1 : (spliceAt buf off repl).length = buf.length := length_spliceAt h
  apply List.ext_getElem?
  intro i
  rw [getElem?_readAt, getElem?_spliceAt h]
  by_cases hi : i < repl.length
  · rw [if_pos hi, if_neg (by omega), if_pos (by omega)]
    congr 1
    omega
  · rw [if_neg hi, eq_comm, List.getElem?_eq_none]
    omega

/-- Reading a region that lies entirely before the splice. -/
theorem readAt_spliceAt_before {buf repl : List Nat} {a n off : Nat}
    (hbefore : a + n ≤ off) (h : off + repl.length ≤ buf.length) :
    readAt (spliceAt buf off repl) a n = readAt buf a n := by
  apply List.ext_getElem?
  intro i
  rw [getElem?_readAt, getElem?_readAt]
  split
  · rw [getElem?_spliceAt h, if_pos (by omega)]
  · rfl

/-- A byte before the splice region is unchanged. -/
theorem getD_spliceAt_before {buf repl : List Nat} {off i : Nat} {d : Nat}
    (hi : i < off) (h : off + repl.length ≤ buf.length) :
    (spliceAt buf off repl).getD i d = buf.getD i d := by
  rw [getD_spliceAt h, if_pos hi]

/-! ### Message-Authenticator, Response Authenticator (HMAC-MD5 / MD5) -/

/-- The byte string that `checkmessageauth`/`createmessageauth` feed to
HMAC-MD5: the first `RADLEN` bytes of the buffer with the 16-byte
Message-Authenticator value at `off` zeroed in place. -/
def machashInput (buf : List Nat) (off : Nat) : List Nat :=
  let z := spliceAt buf off (List.replicate 16 0)
  z.take (RADLEN z)

/-- `checkmessageauth` (src/radsecproxy.c:534-568).  `off` is the byte
offset of the 16-byte Message-Authenticator value inside `buf`.  The C
function saves the value, zeroes it in place, HMACs the first `RADLEN`
bytes, restores the value and compares it with the digest; the second
component is the buffer as the function leaves it. -/
def checkmessageauthRun (hm : List Nat → List Nat → List Nat)
    (buf : List Nat) (off : Nat) (secret : List Nat) : Bool × List Nat :=
  let auth := readAt buf off 16
  let zbuf := spliceAt buf off (List.replicate 16 0)
  let hash := hm secret (machashInput buf off)
  let rbuf := spliceAt zbuf off auth
  (hash.length == 16 && auth == hash, rbuf)

/-- The verdict of `checkmessageauth`. -/
def checkmessageauth (hm : List Nat → List Nat → List Nat)
    (buf : List Nat) (off : Nat) (secret : List Nat) : Bool :=
  (checkmessageauthRun hm buf off secret).1

/-- `createmessageauth` (src/radsecproxy.c:570-598): zero the 16-byte
value at `off`, HMAC-MD5 the first `RADLEN` bytes under `secret`, write
the digest into the value.  `none` models the `md_len != 16` failure. -/
def createmessageauth (hm : List Nat → List Nat → List Nat)
    (buf : List Nat) (off : Nat) (secret : List Nat) : Option (List Nat) :=
  let zbuf := spliceAt buf off (List.replicate 16 0)
  let hash := hm secret (machashInput buf off)
  if hash.length = 16 then some (spliceAt zbuf off hash) else none

/-- `radsign` (src/radsecproxy.c:484-504): write
`MD5(first RADLEN bytes ‖ secret)` into bytes 4..20 (used to sign
replies sent back to a client). -/
def radsign (md5 : List Nat → List Nat) (buf secret : List Nat) :
    Option (List Nat) :=
  let hash := md5 (buf.take (RADLEN buf) ++ secret)
  if hash.length = 16 then some (spliceAt buf 4 hash) else none

/-- `validauth` (src/radsecproxy.c:506-532): the Response Authenticator
check — `MD5(code‖id‖length ‖ reqauth ‖ attributes ‖ secret)` must equal
bytes 4..20 of the reply. -/
def validauth (md5 : List Nat → List Nat) (buf reqauth secret : List Nat) :
    Bool :=
  let len := RADLEN buf
  let hash := md5 (buf.take 4 ++ reqauth ++
      (if len ≤ 20 then [] else readAt buf 20 (len - 20)) ++ secret)
  hash.length == 16 && readAt buf 4 16 == hash

/-- An executable stand-in for the external MD5 primitive, used to
evaluate the code model on concrete inputs: 16 copies of the byte-sum of
the input modulo 256. -/
def testmd5 (l : List Nat) : List Nat :=
  List.replicate 16 (l.sum % 256)

/-- An executable stand-in for the external HMAC-MD5 primitive. -/
def testhmac (key data : List Nat) : List Nat :=
  List.replicate 16 ((key.sum + 2 * data.sum + data.length) % 256)

/-! ### C7: Message-Authenticator fill/verify round trip -/

/-- C7: for a buffer whose 16-byte Message-Authenticator value sits at
offset `off` (inside the hashed `RADLEN` region, behind the header):
(1) after `createmessageauth` fills the attribute, `checkmessageauth`
on the same buffer returns true; (2) a buffer `bad` that differs from the
filled buffer exactly at a position `j` outside the Message-Authenticator
field changes the bytes that are HMACed, and — whenever the external
HMAC-MD5 distinguishes the two inputs — `checkmessageauth` returns false
on it; (3) `checkmessageauth` leaves the buffer unchanged (it zeroes the
attribute, computes the HMAC and restores the saved value). -/
theorem C7_messageauth_roundtrip_flip_restore
    (hm : List Nat → List Nat → List Nat) (buf secret bad fbuf : List Nat)
    (off j : Nat)
    (hoff : 4 ≤ off) (hin : off + 16 ≤ buf.length)
    (hrl : RADLEN buf ≤ buf.length)
    (hf : createmessageauth hm buf off secret = some fbuf)
    (hblen : bad.length = fbuf.length)
    (hagree : ∀ k, k < bad.length → k ≠ j → bad.getD k 0 = fbuf.getD k 0)
    (hout : j < off ∨ off + 16 ≤ j)
    (hj : j < RADLEN buf) (hjb : j < RADLEN bad)
    (hdiff : bad.getD j 0 ≠ fbuf.getD j 0) :
    checkmessageauth hm fbuf off secret = true ∧
    machashInput bad off ≠ machashInput fbuf off ∧
    (hm secret (machashInput bad off) ≠ hm secret (machashInput fbuf off) →
      checkmessageauth hm bad off secret = false) ∧
    (checkmessageauthRun hm buf off secret).2 = buf := by
  have hz16 : (List.replicate 16 (0 : Nat)).length = 16 := by simp
  have hinz : off + (List.replicate 16 (0 : Nat)).length ≤ buf.length := by
    simpa using hin
  simp only [createmessageauth] at hf
  split at hf
  case isFalse => exact absurd hf (by simp)
  case isTrue hlen16 =>
  injection hf with hf
  subst hf
  set Z := spliceAt buf off (List.replicate 16 0) with hZ
  set hash := hm secret (machashInput buf off) with hhash
  have hZlen : Z.length = buf.length := length_spliceAt hinz
  have hinh : off + hash.length ≤ Z.length := by rw [hlen16, hZlen]; omega
  have hFlen : (spliceAt Z off hash).length = buf.length := by
    rw [length_spliceAt hinh, hZlen]
  have hRZ : RADLEN Z = RADLEN buf := RADLEN_spliceAt (by omega) hinz
  have hRF : RADLEN (spliceAt Z off hash) = RADLEN buf := by
    rw [RADLEN_spliceAt (by omega) hinh, hRZ]
  have hZZ : spliceAt Z off (List.replicate 16 0) = Z := by
    rw [hZ, spliceAt_spliceAt (by simp) hinz]
  have hmach : machashInput (spliceAt Z off hash) off = machashInput buf off := by
    simp only [machashInput]
    rw [spliceAt_spliceAt (by rw [hlen16]; simp) hinh, hZZ]
  have hread : readAt (spliceAt Z off hash) off 16 = hash := by
    have h := readAt_spliceAt_self hinh
    rwa [hlen16] at h
  have hblenb : bad.length = buf.length := by rw [hblen, hFlen]
  -- bytes of the two HMAC inputs at position j
  have hjbuf : j < buf.length := lt_of_lt_of_le hj hrl
  have houtj : ∀ b : List Nat, off + 16 ≤ b.length →
      (spliceAt b off (List.replicate 16 0))[j]? = b[j]? := by
    intro b hb
    rw [getElem?_spliceAt (by simpa using hb)]
    rcases hout with h1 | h1
    · rw [if_pos h1]
    · rw [if_neg (by omega), if_neg (by simp; omega)]
  have hmachbad : (machashInput bad off)[j]? = bad[j]? := by
    simp only [machashInput]
    rw [List.getElem?_take_of_lt
        (by rw [RADLEN_spliceAt (by omega) (by simp; omega)]; exact hjb)]
    exact houtj bad (by omega)
  have hfj : (spliceAt Z off hash)[j]? = buf[j]? := by
    have h1 : (spliceAt Z off hash)[j]? = Z[j]? := by
      rw [getElem?_spliceAt hinh]
      rcases hout with h1 | h1
      · rw [if_pos h1]
      · rw [if_neg (by omega), if_neg (by omega)]
    rw [h1, hZ]
    exact houtj buf hin
  have hmachf : (machashInput (spliceAt Z off hash) off)[j]? = buf[j]? := by
    rw [hmach]
    simp only [machashInput]
    rw [List.getElem?_take_of_lt (by rw [hRZ]; exact hj)]
    exact houtj buf hin
  refine ⟨?_, ?_, ?_, ?_⟩
  · -- (1) fill then verify
    simp only [checkmessageauth, checkmessageauthRun, hmach, hread, ← hhash]
    simp [hlen16]
  · -- (2a) the HMAC inputs differ at j
    intro heq
    have hbj : bad[j]? = buf[j]? := by rw [← hmachbad, heq, hmachf]
    have hfd : (spliceAt Z off hash).getD j 0 = buf.getD j 0 := by
      simp only [List.getD_eq_getElem?_getD, hfj]
    apply hdiff
    rw [hfd]
    simp only [List.getD_eq_getElem?_getD, hbj]
  · -- (2b) a differing HMAC output falsifies the check
    intro hneq
    have hauth : readAt bad off 16 = hash := by
      have heqr : readAt bad off 16 = readAt (spliceAt Z off hash) off 16 := by
        apply List.ext_getElem?
        intro i
        rw [getElem?_readAt, getElem?_readAt]
        split
        · rename_i hi
          have hlt : off + i < bad.length := by omega
          have hlt2 : off + i < (spliceAt Z off hash).length := by omega
          rw [List.getElem?_eq_getElem hlt, List.getElem?_eq_getElem hlt2]
          have hag := hagree (off + i) hlt (by omega)
          rw [List.getD_eq_getElem _ _ hlt, List.getD_eq_getElem _ _ hlt2] at hag
          exact congrArg some hag
        · rfl
      rw [heqr, hread]
    rw [hmach] at hneq
    simp only [checkmessageauth, checkmessageauthRun, hauth, ← hhash]
    simp only [Bool.and_eq_false_imp, beq_iff_eq]
    intro _
    simp only [beq_eq_false_iff_ne, ne_eq]
    exact fun h => hneq (h ▸ rfl)
  · -- (3) the buffer is restored
    simp only [checkmessageauthRun]
    rw [spliceAt_spliceAt (by rw [length_readAt hin]; simp) hinz]
    exact spliceAt_readAt_self hin

/-- Concrete packet for the C7 witness: code 12, id 0, length 38, a
16-byte authenticator of 1s, and a Message-Authenticator attribute
(type 80, length 18) whose value starts at offset 22. -/
def wbuf : List Nat :=
  [12, 0, 0, 38] ++ List.replicate 16 1 ++ [80, 18] ++ List.replicate 16 5

/-- `wbuf` after `createmessageauth` under `testhmac` and secret `[7]`. -/
def wfbuf : List Nat :=
  [12, 0, 0, 38] ++ List.replicate 16 1 ++ [80, 18] ++ List.replicate 16 117

/-- `wfbuf` with its first byte (outside the Message-Authenticator field)
flipped from 12 to 13. -/
def wbad : List Nat :=
  [13, 0, 0, 38] ++ List.replicate 16 1 ++ [80, 18] ++ List.replicate 16 117

/-- Witness for C7 at a concrete packet, secret and flipped byte. -/
theorem C7_messageauth_witness :
    checkmessageauth testhmac wfbuf 22 [7] = true ∧
    machashInput wbad 22 ≠ machashInput wfbuf 22 ∧
    (testhmac [7] (machashInput wbad 22) ≠ testhmac [7] (machashInput wfbuf 22) →
      checkmessageauth testhmac wbad 22 [7] = false) ∧
    (checkmessageauthRun testhmac wbuf 22 [7]).2 = wbuf :=
  C7_messageauth_roundtrip_flip_restore testhmac wbuf [7] wbad wfbuf 22 0
    (by decide) (by decide) (by decide) (by decide) (by decide)
    (by decide) (by decide) (by decide) (by decide) (by decide)

/-! ### C9: TLS reconnect backoff ladder -/

/-- The backoff ladder at the top of `tlsconnect`'s retry loop
(src/radsecproxy.c:370-385): given the `connectionok` flag and
`elapsed = now.tv_sec - lastconnecttry.tv_sec`, return the seconds slept
before this connection attempt (`none` = no sleep; in that branch the
code also sets `lastconnecttry.tv_sec = now.tv_sec`) and the flag's new
value. -/
def tlsconnectBackoff (connectionok : Bool) (elapsed : Int) :
    Option Nat × Bool :=
  if connectionok then (some 10, false)
  else if elapsed < 5 then (some 10, connectionok)
  else if elapsed < 300 then (some elapsed.toNat, connectionok)
  else if elapsed < 100000 then (some 600, connectionok)
  else (none, connectionok)

/-- The ladder exactly as the specification words it, with explicit
two-sided ranges. -/
def backoffLadderSpec (connectionok : Bool) (elapsed : Int) :
    Option Nat × Bool :=
  if connectionok then (some 10, false)
  else if elapsed < 5 then (some 10, connectionok)
  else if 5 ≤ elapsed ∧ elapsed < 300 then (some elapsed.toNat, connectionok)
  else if 300 ≤ elapsed ∧ elapsed < 100000 then (some 600, connectionok)
  else (none, connectionok)

/-- C9: before each TLS connection attempt, `tlsconnect` sleeps exactly
as the spec's ladder prescribes: 10 s when `connection_ok` was set (also
clearing it); otherwise 10 s when `elapsed < 5`, `elapsed` seconds when
`5 ≤ elapsed < 300`, 600 s when `300 ≤ elapsed < 100000`, and nothing
when `elapsed ≥ 100000`. -/
theorem C9_tlsconnect_backoff_matches_spec :
    ∀ (connectionok : Bool) (elapsed : Int),
      tlsconnectBackoff connectionok elapsed =
        backoffLadderSpec connectionok elapsed := by
  intro ok e
  unfold tlsconnectBackoff backoffLadderSpec
  split_ifs <;> first | rfl | omega

/-- C1 (code_bug evaluation): with a 32-byte plaintext the decryption does
NOT invert the encryption.  Concretely, with shared secret `[1]`, an
all-zero authenticator, all-zero plaintext and all-zero uninitialised
memory below `out`, the round trip returns second block `16,16,…` instead
of `0,0,…`: `pwdencrypt` feeds the 16 bytes below its local `out` array
(first chained block) and thereafter the ciphertext block *before* the
previous one into the keystream, while `pwddecrypt` feeds the previous
ciphertext block. -/
theorem C1_pwd_roundtrip_fails_at_len32 :
    pwddecrypt testmd5 [1] (List.replicate 16 0)
      (pwdencrypt testmd5 [1] (List.replicate 16 0) (List.replicate 16 0)
        [List.replicate 16 0, List.replicate 16 0])
      ≠ [List.replicate 16 0, List.replicate 16 0] := by
  decide

/-! ### Attribute walking (attrget / attrvalidate) -/

/-- `attrget` (src/radsecproxy.c:600-608), returning the byte offset of
the first attribute of type `ty`, walking from `off` while more than one
byte of `length` remains.  `fuel` bounds the iteration count: the C loop
can only fail to terminate when an attribute-length octet is 0, a buffer
`attrvalidate` rejects; every call site passes fuel that the loop cannot
exhaust on inputs the C code terminates on (each step consumes
`ATTRLEN ≥ 1` of `length`). -/
def attrget (buf : List Nat) : Nat → Nat → Int → Nat → Option Nat
  | 0, _, _, _ => none
  | fuel + 1, off, length, ty =>
    if 1 < length then
      if attrtypeAt buf off = ty then some off
      else attrget buf fuel (off + attrlenAt buf off)
        (length - attrlenAt buf off) ty
    else none

/-- `attrget` with the fuel every call site uses. -/
def attrgetBuf (buf : List Nat) (off : Nat) (length : Int) (ty : Nat) :
    Option Nat :=
  attrget buf (length.toNat + 1) off length ty

/-- `attrvalidate` (src/radsecproxy.c:951-967): every attribute length
octet is ≥ 2 and no attribute overruns the region (a single trailing byte
is tolerated with a warning). -/
def attrvalidate (buf : List Nat) : Nat → Nat → Int → Bool
  | 0, _, _ => false
  | fuel + 1, off, length =>
    if 1 < length then
      if (attrlenAt buf off : Int) < 2 then false
      else if length - attrlenAt buf off < 0 then false
      else attrvalidate buf fuel (off + attrlenAt buf off)
        (length - attrlenAt buf off)
    else true

/-- `attrvalidate` with the fuel every call site uses (the loop consumes
at least 2 of `length` per step, so this fuel is never exhausted). -/
def attrvalidateBuf (buf : List Nat) (off : Nat) (length : Int) : Bool :=
  attrvalidate buf (length.toNat + 1) off length

/-! ### The request table (struct request / struct server, sendrq) -/

/-- Modelled from the spec (the constant lives in the missing header
radsecproxy.h): the request table capacity, 256 — "table has fixed
capacity 256", "slot index IS the outbound RADIUS identifier (0..255)". -/
def MAX_REQUESTS : Nat := 256

/-- Modelled from the spec (missing header radsecproxy.h): total request
expiry, "total expiry 20 s". -/
def REQUEST_EXPIRY : Nat := 20

/-- Modelled from the spec (missing header radsecproxy.h): UDP retry
limit, "UDP: retry_limit = 3". -/
def REQUEST_RETRIES : Nat := 3

/-- RADIUS packet codes and attribute types (modelled from the spec's
data model; the `RAD_*` constants live in the missing radsecproxy.h). -/
def RAD_Access_Request : Nat := 1
def RAD_Access_Accept : Nat := 2
def RAD_Access_Reject : Nat := 3
def RAD_Access_Challenge : Nat := 11
def RAD_Status_Server : Nat := 12
def RAD_Attr_User_Name : Nat := 1
def RAD_Attr_User_Password : Nat := 2
def RAD_Attr_Reply_Message : Nat := 18
def RAD_Attr_Vendor_Specific : Nat := 26
def RAD_Attr_Tunnel_Password : Nat := 69
def RAD_Attr_Message_Authenticator : Nat := 80
def RAD_VS_ATTR_MS_MPPE_Send_Key : Nat := 16
def RAD_VS_ATTR_MS_MPPE_Recv_Key : Nat := 17

/-- `struct request` (one slot of a server's request table): the outbound
buffer, the identity of the originating client (`from`), the client's
original identifier and Request Authenticator, the UDP source address
(opaque), and the retry state. -/
structure Request where
  buf : List Nat
  fromCl : Nat
  origid : Nat
  origauth : List Nat
  fromsa : Nat
  tries : Nat
  expiry : Int
  received : Bool
deriving DecidableEq

/-- The transport type of a peer (`conf->type`, 'U' or 'T'). -/
inductive Transport where
  | udp
  | tls
deriving DecidableEq

/-- `struct server` together with the fields of its `struct clsrvconf`
that the core uses: shared secret, transport type, StatusServer flag, the
request table (`requests[i] = none` models a slot whose `buf` is NULL)
and `nextid`. -/
structure Server where
  secret : List Nat
  typ : Transport
  statusserver : Bool
  requests : Nat → Option Request
  nextid : Nat

/-- One of the two free-slot scan loops of `sendrq`
(src/radsecproxy.c:616-618 and 620-622): starting at `i`, return the
first index whose slot has no buffer, or `i + fuel` when the scan is
exhausted. -/
def scanFree (tbl : Nat → Option Request) : Nat → Nat → Nat
  | i, 0 => i
  | i, fuel + 1 => if (tbl i).isNone then i else scanFree tbl (i + 1) fuel

theorem scanFree_ge (tbl : Nat → Option Request) (i fuel : Nat) :
    i ≤ scanFree tbl i fuel := by
  induction fuel generalizing i with
  | zero => exact le_refl _
  | succ fuel ih =>
    unfold scanFree
    split
    · exact le_refl _
    · exact le_trans (Nat.le_succ i) (ih (i + 1))

theorem scanFree_le (tbl : Nat → Option Request) (i fuel : Nat) :
    scanFree tbl i fuel ≤ i + fuel := by
  induction fuel generalizing i with
  | zero => exact le_refl _
  | succ fuel ih =>
    unfold scanFree
    split
    · omega
    · have := ih (i + 1)
      omega

theorem scanFree_isNone (tbl : Nat → Option Request) (i fuel : Nat)
    (h : scanFree tbl i fuel < i + fuel) :
    (tbl (scanFree tbl i fuel)).isNone := by
  induction fuel generalizing i with
  | zero => unfold scanFree at h; omega
  | succ fuel ih =>
    unfold scanFree at h ⊢
    by_cases hfree : (tbl i).isNone
    · rw [if_pos hfree]
      exact hfree
    · rw [if_neg hfree] at h ⊢
      exact ih (i + 1) (by omega)

theorem scanFree_occupied_before (tbl : Nat → Option Request)
    (i fuel : Nat) :
    ∀ k, i ≤ k → k < scanFree tbl i fuel → (tbl k).isSome := by
  induction fuel generalizing i with
  | zero =>
    intro k h1 h2
    unfold scanFree at h2
    omega
  | succ fuel ih =>
    intro k h1 h2
    unfold scanFree at h2
    by_cases hfree : (tbl i).isNone
    · rw [if_pos hfree] at h2
      omega
    · rw [if_neg hfree] at h2
      rcases Nat.eq_or_lt_of_le h1 with rfl | h1
      · rw [Option.isNone_iff_eq_none] at hfree
        exact Option.ne_none_iff_isSome.mp hfree
      · exact ih (i + 1) k h1 h2

theorem scanFree_full (tbl : Nat → Option Request) (i fuel : Nat)
    (h : ∀ k, i ≤ k → k < i + fuel → (tbl k).isSome) :
    scanFree tbl i fuel = i + fuel := by
  induction fuel generalizing i with
  | zero => rfl
  | succ fuel ih =>
    unfold scanFree
    rw [if_neg (by
      have := h i (le_refl i) (by omega)
      simp only [Option.isNone_iff_eq_none]
      intro hc
      rw [hc] at this
      exact absurd this (by simp))]
    have := ih (i + 1) (fun k h1 h2 => h k (by omega) (by omega))
    omega

/-- Store a request in slot `i` and advance `nextid`
(src/radsecproxy.c:641-642). -/
def insertReq (srv : Server) (i : Nat) (r : Request) : Server :=
  { srv with
    requests := fun j => if j = i then some r else srv.requests j,
    nextid := i + 1 }

/-- `sendrq` (src/radsecproxy.c:610-650): scan from `nextid` forward,
then from 0 to `nextid`, for a slot whose buffer is absent; on failure
drop the request (`(none, srv)`); on success write the chosen id into
header byte 1, recompute the Message-Authenticator under the target
server's secret if the attribute is present, store the request and set
`nextid = id + 1`. -/
def sendrq (hm : List Nat → List Nat → List Nat) (srv : Server)
    (rq : Request) : Option Nat × Server :=
  let i1 := scanFree srv.requests srv.nextid (MAX_REQUESTS - srv.nextid)
  let i := if i1 = MAX_REQUESTS then scanFree srv.requests 0 srv.nextid else i1
  if i1 = MAX_REQUESTS ∧ i = srv.nextid then (none, srv)
  else
    let buf1 := rq.buf.set 1 i
    match attrgetBuf buf1 20 ((RADLEN buf1 : Int) - 20)
        RAD_Attr_Message_Authenticator with
    | some off =>
      match createmessageauth hm buf1 (attrvalOff off) srv.secret with
      | none => (none, srv)
      | some b2 => (some i, insertReq srv i { rq with buf := b2 })
    | none => (some i, insertReq srv i { rq with buf := buf1 })

/-- `rqinqueue` (src/radsecproxy.c:939-949): some slot holds a buffered
request whose original id and originating client match. -/
def rqinqueue (srv : Server) (fromCl : Nat) (id : Nat) : Bool :=
  (List.range MAX_REQUESTS).any fun i =>
    match srv.requests i with
    | some r => r.origid = id && r.fromCl = fromCl
    | none => false

/-- A byte strictly before the splice offset and inside the buffer is
unchanged, with no in-bounds requirement on the splice itself. -/
theorem getD_spliceAt_lt {buf repl : List Nat} {off i : Nat} {d : Nat}
    (h1 : i < off) (h2 : i < buf.length) :
    (spliceAt buf off repl).getD i d = buf.getD i d := by
  simp only [List.getD_eq_getElem?_getD, spliceAt]
  rw [List.getElem?_append_left
      (by simp only [List.length_append, List.length_take]; omega),
    List.getElem?_append_left (by simp only [List.length_take]; omega),
    List.getElem?_take_of_lt h1]

theorem length_spliceAt_formula (buf repl : List Nat) (off : Nat) :
    (spliceAt buf off repl).length =
      min off buf.length + repl.length + (buf.length - (off + repl.length)) := by
  simp only [spliceAt, List.length_append, List.length_take, List.length_drop]

/-- Header byte 1 survives `createmessageauth` (both splices happen at the
attribute value, which starts at offset ≥ 22). -/
theorem getD_createmessageauth_lt
    (hm : List Nat → List Nat → List Nat) {buf b2 secret : List Nat}
    {off i : Nat} (hoff : i < off) (hlen : i < buf.length)
    (h : createmessageauth hm buf off secret = some b2) :
    b2.getD i 0 = buf.getD i 0 := by
  simp only [createmessageauth] at h
  split at h
  case isFalse => exact absurd h (by simp)
  case isTrue hlen16 =>
  injection h with h
  subst h
  have hz : i < (spliceAt buf off (List.replicate 16 0)).length := by
    rw [length_spliceAt_formula]
    omega
  rw [getD_spliceAt_lt hoff hz, getD_spliceAt_lt hoff hlen]

/-- The full characterisation of `sendrq` (used by the claims about the
request table). -/
theorem sendrq_insert_spec (hm : List Nat → List Nat → List Nat)
    (srv : Server) (rq : Request)
    (hnext : srv.nextid ≤ MAX_REQUESTS) (hbuf : 1 < rq.buf.length) :
    ((∀ k, k < MAX_REQUESTS → (srv.requests k).isSome) →
       sendrq hm srv rq = (none, srv)) ∧
    (∀ i srv2, sendrq hm srv rq = (some i, srv2) →
       srv.requests i = none ∧ i < MAX_REQUESTS ∧
       srv2.nextid = i + 1 ∧
       (∀ j, j ≠ i → srv2.requests j = srv.requests j) ∧
       (∃ r, srv2.requests i = some r ∧ r.buf.getD 1 0 = i ∧
          r.fromCl = rq.fromCl ∧ r.origid = rq.origid) ∧
       ((∃ k, srv.nextid ≤ k ∧ k < MAX_REQUESTS ∧ (srv.requests k).isNone) →
          srv.nextid ≤ i ∧
          ∀ k, srv.nextid ≤ k → k < i → (srv.requests k).isSome) ∧
       ((∀ k, srv.nextid ≤ k → k < MAX_REQUESTS → (srv.requests k).isSome) →
          i < srv.nextid ∧ ∀ k, k < i → (srv.requests k).isSome)) := by
  constructor
  · -- all slots occupied: both scans exhaust and the request is dropped
    intro hall
    have h1 : scanFree srv.requests srv.nextid (MAX_REQUESTS - srv.nextid) =
        MAX_REQUESTS := by
      have := scanFree_full srv.requests srv.nextid (MAX_REQUESTS - srv.nextid)
        (fun k hk1 hk2 => hall k (by omega))
      omega
    have h2 : scanFree srv.requests 0 srv.nextid = srv.nextid := by
      have := scanFree_full srv.requests 0 srv.nextid
        (fun k hk1 hk2 => hall k (by omega))
      omega
    simp [sendrq, h1, h2]
  · intro i srv2 heq
    simp only [sendrq] at heq
    by_cases hfull :
        scanFree srv.requests srv.nextid (MAX_REQUESTS - srv.nextid) =
          MAX_REQUESTS
    · -- first scan exhausted, the slot comes from the scan starting at 0
      rw [if_pos hfull] at heq
      set s2 := scanFree srv.requests 0 srv.nextid with hs2
      have hle : s2 ≤ srv.nextid := by
        have := scanFree_le srv.requests 0 srv.nextid
        omega
      by_cases hdrop : s2 = srv.nextid
      · rw [if_pos ⟨hfull, hdrop⟩] at heq
        exact absurd heq (by simp)
      · rw [if_neg (by intro hc; exact hdrop hc.2)] at heq
        have hlt : s2 < srv.nextid := lt_of_le_of_ne hle hdrop
        have hfree : (srv.requests s2).isNone :=
          scanFree_isNone srv.requests 0 srv.nextid (by omega)
        have hocc : ∀ k, k < s2 → (srv.requests k).isSome := fun k hk =>
          scanFree_occupied_before srv.requests 0 srv.nextid k (by omega) hk
        have hoccfirst : ∀ k, srv.nextid ≤ k → k < MAX_REQUESTS →
            (srv.requests k).isSome := fun k hk1 hk2 =>
          scanFree_occupied_before srv.requests srv.nextid
            (MAX_REQUESTS - srv.nextid) k hk1 (by omega)
        -- the branch on the Message-Authenticator attribute
        have hend : i = s2 ∧
            ∃ b, srv2 = insertReq srv s2 { rq with buf := b } ∧
              b.getD 1 0 = s2 := by
          rcases hma : attrgetBuf (rq.buf.set 1 s2) 20
              ((RADLEN (rq.buf.set 1 s2) : Int) - 20)
              RAD_Attr_Message_Authenticator with _ | off
          · simp only [hma] at heq
            injection heq with h1 h2
            refine ⟨(Option.some.inj h1).symm, rq.buf.set 1 s2, h2.symm, ?_⟩
            rw [List.getD_eq_getElem?_getD,
              List.getElem?_set_self (show (1 : Nat) < rq.buf.length by omega)]
            rfl
          · simp only [hma] at heq
            rcases hcm : createmessageauth hm (rq.buf.set 1 s2)
                (attrvalOff off) srv.secret with _ | b2
            · simp only [hcm] at heq
              exact absurd heq (by simp)
            · simp only [hcm] at heq
              injection heq with h1 h2
              refine ⟨(Option.some.inj h1).symm, b2, h2.symm, ?_⟩
              rw [getD_createmessageauth_lt hm (by simp only [attrvalOff]; omega)
                  (by simpa using hbuf) hcm]
              rw [List.getD_eq_getElem?_getD,
                List.getElem?_set_self (show (1 : Nat) < rq.buf.length by omega)]
              rfl
        obtain ⟨rfl, b, rfl, hb⟩ := hend
        refine ⟨by simpa [Option.isNone_iff_eq_none] using hfree, by omega,
          rfl, ?_, ?_, ?_, ?_⟩
        · intro j hj
          simp [insertReq, hj]
        · exact ⟨{ rq with buf := b }, by simp [insertReq], hb, rfl, rfl⟩
        · rintro ⟨k, hk1, hk2, hk3⟩
          have := hoccfirst k hk1 hk2
          simp [Option.isNone_iff_eq_none] at hk3
          rw [hk3] at this
          exact absurd this (by simp)
        · intro _
          exact ⟨hlt, hocc⟩
    · -- the first scan found a free slot
      rw [if_neg hfull, if_neg (by intro hc; exact hfull hc.1)] at heq
      set s1 := scanFree srv.requests srv.nextid (MAX_REQUESTS - srv.nextid)
        with hs1
      have hle : s1 ≤ MAX_REQUESTS := by
        have := scanFree_le srv.requests srv.nextid (MAX_REQUESTS - srv.nextid)
        omega
      have hlt : s1 < MAX_REQUESTS := lt_of_le_of_ne hle hfull
      have hge : srv.nextid ≤ s1 :=
        scanFree_ge srv.requests srv.nextid (MAX_REQUESTS - srv.nextid)
      have hfree : (srv.requests s1).isNone :=
        scanFree_isNone srv.requests srv.nextid (MAX_REQUESTS - srv.nextid)
          (by omega)
      have hocc : ∀ k, srv.nextid ≤ k → k < s1 → (srv.requests k).isSome :=
        fun k hk1 hk2 =>
          scanFree_occupied_before srv.requests srv.nextid
            (MAX_REQUESTS - srv.nextid) k hk1 hk2
      have hend : i = s1 ∧
          ∃ b, srv2 = insertReq srv s1 { rq with buf := b } ∧
            b.getD 1 0 = s1 := by
        rcases hma : attrgetBuf (rq.buf.set 1 s1) 20
            ((RADLEN (rq.buf.set 1 s1) : Int) - 20)
            RAD_Attr_Message_Authenticator with _ | off
        · simp only [hma] at heq
          injection heq with h1 h2
          refine ⟨(Option.some.inj h1).symm, rq.buf.set 1 s1, h2.symm, ?_⟩
          rw [List.getD_eq_getElem?_getD,
            List.getElem?_set_self (show (1 : Nat) < rq.buf.length by omega)]
          rfl
        · simp only [hma] at heq
          rcases hcm : createmessageauth hm (rq.buf.set 1 s1)
              (attrvalOff off) srv.secret with _ | b2
          · simp only [hcm] at heq
            exact absurd heq (by simp)
          · simp only [hcm] at heq
            injection heq with h1 h2
            refine ⟨(Option.some.inj h1).symm, b2, h2.symm, ?_⟩
            rw [getD_createmessageauth_lt hm (by simp only [attrvalOff]; omega)
                (by simpa using hbuf) hcm]
            rw [List.getD_eq_getElem?_getD,
              List.getElem?_set_self (show (1 : Nat) < rq.buf.length by omega)]
            rfl
      obtain ⟨rfl, b, rfl, hb⟩ := hend
      refine ⟨by simpa [Option.isNone_iff_eq_none] using hfree, hlt,
        rfl, ?_, ?_, ?_, ?_⟩
      · intro j hj
        simp [insertReq, hj]
      · exact ⟨{ rq with buf := b }, by simp [insertReq], hb, rfl, rfl⟩
      · intro _
        exact ⟨hge, hocc⟩
      · intro hoccall
        have := hoccall s1 hge hlt
        simp [Option.isNone_iff_eq_none] at hfree
        rw [hfree] at this
        exact absurd this (by simp)

/-- C3: `sendrq` never stores a request into an occupied slot.  On
success the chosen slot was free and is characterised by the two scans
(first free slot at or after `next_id`; failing that, the first free slot
from 0); header byte 1 of the stored buffer is the slot index, `nextid`
becomes `id + 1`, the originating client and original id are preserved
and no other slot changes.  When all 256 slots are occupied the insert
fails, the request is dropped and the table is unchanged. -/
theorem C3_sendrq_insert (hm : List Nat → List Nat → List Nat)
    (srv : Server) (rq : Request)
    (hnext : srv.nextid ≤ MAX_REQUESTS) (hbuf : 1 < rq.buf.length) :
    ((∀ k, k < MAX_REQUESTS → (srv.requests k).isSome) →
       sendrq hm srv rq = (none, srv)) ∧
    (∀ i srv2, sendrq hm srv rq = (some i, srv2) →
       srv.requests i = none ∧ i < MAX_REQUESTS ∧
       srv2.nextid = i + 1 ∧
       (∀ j, j ≠ i → srv2.requests j = srv.requests j) ∧
       (∃ r, srv2.requests i = some r ∧ r.buf.getD 1 0 = i ∧
          r.fromCl = rq.fromCl ∧ r.origid = rq.origid) ∧
       ((∃ k, srv.nextid ≤ k ∧ k < MAX_REQUESTS ∧ (srv.requests k).isNone) →
          srv.nextid ≤ i ∧
          ∀ k, srv.nextid ≤ k → k < i → (srv.requests k).isSome) ∧
       ((∀ k, srv.nextid ≤ k → k < MAX_REQUESTS → (srv.requests k).isSome) →
          i < srv.nextid ∧ ∀ k, k < i → (srv.requests k).isSome)) :=
  sendrq_insert_spec hm srv rq hnext hbuf

/-- Concrete empty-table server for the C3 witness. -/
def wsrv : Server :=
  { secret := [7], typ := Transport.udp, statusserver := false,
    requests := fun _ => none, nextid := 0 }

/-- Concrete request (no Message-Authenticator attribute) for the C3
witness. -/
def wrq : Request :=
  { buf := [1, 0, 0, 20] ++ List.replicate 16 9, fromCl := 3, origid := 42,
    origauth := List.replicate 16 9, fromsa := 5, tries := 0, expiry := 0,
    received := false }

/-- Witness for C3 at a concrete server and request. -/
theorem C3_sendrq_insert_witness :
    ((∀ k, k < MAX_REQUESTS → (wsrv.requests k).isSome) →
       sendrq testhmac wsrv wrq = (none, wsrv)) ∧
    (∀ i srv2, sendrq testhmac wsrv wrq = (some i, srv2) →
       wsrv.requests i = none ∧ i < MAX_REQUESTS ∧
       srv2.nextid = i + 1 ∧
       (∀ j, j ≠ i → srv2.requests j = wsrv.requests j) ∧
       (∃ r, srv2.requests i = some r ∧ r.buf.getD 1 0 = i ∧
          r.fromCl = wrq.fromCl ∧ r.origid = wrq.origid) ∧
       ((∃ k, wsrv.nextid ≤ k ∧ k < MAX_REQUESTS ∧ (wsrv.requests k).isNone) →
          wsrv.nextid ≤ i ∧
          ∀ k, wsrv.nextid ≤ k → k < i → (wsrv.requests k).isSome) ∧
       ((∀ k, wsrv.nextid ≤ k → k < MAX_REQUESTS → (wsrv.requests k).isSome) →
          i < wsrv.nextid ∧ ∀ k, k < i → (wsrv.requests k).isSome)) :=
  C3_sendrq_insert testhmac wsrv wrq (by decide) (by decide)

/-! ### radsrv: the server side of the proxy -/

/-- The fields of a client peer's `struct clsrvconf` that the core
uses. -/
structure ClientConf where
  secret : List Nat
  typ : Transport

instance : Inhabited ClientConf :=
  ⟨{ secret := [], typ := Transport.udp }⟩

instance : Inhabited Server :=
  ⟨{ secret := [], typ := Transport.udp, statusserver := false,
     requests := fun _ => none, nextid := 0 }⟩

/-- A server's `struct clsrvconf` together with its `struct server`.
`addserver` (src/radsecproxy.c:1777-1795) allocates a `struct server` for
every configured server conf, but the `servers` field itself is a
nullable pointer, which `radsrv` tests with `if (!to)`. -/
structure SrvConf where
  secret : List Nat
  typ : Transport
  statusserver : Bool
  server : Option Server

/-- `struct realm`: the compiled case-insensitive regex is external
(POSIX `regexec`), modelled as the boolean matching function it computes
on the username bytes; `srvconf` is NULL (`none`) for a realm configured
without a `server` option (`addrealm` only assigns it under
`if (server)`, src/radsecproxy.c:1851-1852); `message` is the optional
ReplyMessage. -/
structure Realm where
  regexMatch : List Nat → Bool
  srvconf : Option SrvConf
  message : Option (List Nat)

instance : Inhabited SrvConf :=
  ⟨{ secret := [], typ := Transport.udp, statusserver := false,
     server := none }⟩

instance : Inhabited Realm :=
  ⟨{ regexMatch := fun _ => false, srvconf := none, message := none }⟩

/-- `id2realm` (src/radsecproxy.c:929-937): the first realm whose regex
matches the username. -/
def id2realm (realms : List Realm) (username : List Nat) : Option Realm :=
  realms.find? fun r => r.regexMatch username

/-- `respondstatusserver` (src/radsecproxy.c:1021-1035): copy the 20-byte
header, set code to Access-Accept and length to 20 (the reply is then
signed and queued by `sendreply`). -/
def respondstatusserver (buf : List Nat) : List Nat :=
  (((buf.take 20).set 0 RAD_Access_Accept).set 2 0).set 3 20

/-- `respondreject` (src/radsecproxy.c:1037-1058): copy the 20-byte
header, set code to Access-Reject, set the length field, and append a
Reply-Message attribute when a message is configured (the reply is then
signed and queued by `sendreply`). -/
def respondreject (buf : List Nat) (message : Option (List Nat)) :
    List Nat :=
  let len := 20 + (match message with | some m => 2 + m.length | none => 0)
  let hdr :=
    (((buf.take 20).set 0 RAD_Access_Reject).set 2 (len / 256)).set 3 (len % 256)
  match message with
  | some m => hdr ++ [RAD_Attr_Reply_Message, len - 20] ++ m
  | none => hdr

/-- Split a byte string into 16-byte blocks (the last block may be
short). -/
def chunk16 (l : List Nat) : List (List Nat) :=
  if l = [] then [] else l.take 16 :: chunk16 (l.drop 16)
termination_by l.length
decreasing_by
  simp only [List.length_drop]
  have : l ≠ [] := by assumption
  have : 0 < l.length := List.length_pos.mpr this
  omega

/-- `pwdrecrypt` (src/radsecproxy.c:969-993): reject lengths that are not
multiples of 16 in 16..128, then decrypt under the old secret and old
authenticator and re-encrypt under the new secret and new authenticator
(in place; here returning the new value bytes). -/
def pwdrecrypt (md5 : List Nat → List Nat) (junk : List Nat)
    (pwd oldsecret newsecret oldauth newauth : List Nat) :
    Option (List Nat) :=
  if pwd.length < 16 ∨ 128 < pwd.length ∨ pwd.length % 16 ≠ 0 then none
  else
    let plain := (pwddecrypt md5 oldsecret oldauth (chunk16 pwd)).flatten
    some ((pwdencrypt md5 newsecret junk newauth (chunk16 plain)).flatten)

/-- `pwdrecrypt` applied to the value of the attribute at `off`,
splicing the re-encrypted value back into the buffer. -/
def pwdSpliceAt (md5 : List Nat → List Nat) (junk : List Nat)
    (buf : List Nat) (off : Nat)
    (oldsecret newsecret oldauth newauth : List Nat) : Option (List Nat) :=
  match pwdrecrypt md5 junk
      (readAt buf (attrvalOff off) (attrvallenAt buf off))
      oldsecret newsecret oldauth newauth with
  | none => none
  | some v => some (spliceAt buf (attrvalOff off) v)

/-- The outcome of `radsrv` on one incoming packet: drop it, crash on a
NULL-pointer dereference, hand a signed reply to the originating client's
reply queue (`sendreply`), or hand a request to a target server's
request table (`sendrq`). -/
inductive Action where
  | drop
  | crash
  | reply (buf : List Nat)
  | forward (sc : SrvConf) (rq : Request)

/-- The Access-Request-only section of `radsrv`
(src/radsecproxy.c:1091-1115): extract User-Name, match a realm, resolve
`to = realm->srvconf->servers` — a NULL-pointer dereference (crash) when
the realm has no `server` option — and drop the packet when an in-flight
request from the same client with the same id is already queued.
`Sum.inl` is an early exit, `Sum.inr` carries `realm` and `srvconf` into
the rest of `radsrv`. -/
def radsrvRealmSection (realms : List Realm) (buf : List Nat)
    (fromCl id : Nat) (len : Int) : Sum Action (Realm × SrvConf) :=
  match attrgetBuf buf 20 len RAD_Attr_User_Name with
  | none => Sum.inl Action.drop
  | some uoff =>
    let username := readAt buf (attrvalOff uoff) (attrvallenAt buf uoff)
    match id2realm realms username with
    | none => Sum.inl Action.drop
    | some realm =>
      match realm.srvconf with
      | none => Sum.inl Action.crash
      | some sc =>
        match sc.server with
        | some srv =>
          if rqinqueue srv fromCl id then Sum.inl Action.drop
          else Sum.inr (realm, sc)
        | none => Sum.inr (realm, sc)

/-- `radsrv` (src/radsecproxy.c:1060-1167).  `junk` is the uninitialised
memory read by `pwdencrypt` (see `pwdencrypt`); `newauth` is the fresh
random Request Authenticator produced by `RAND_bytes`.  The sequence
follows the source: code filter, attribute validation, the
Access-Request realm/duplicate section, Message-Authenticator check,
Status-Server response, reject for a realm whose conf has no server,
User-Password and Tunnel-Password re-encryption, then forward with
`origid`/`origauth` saved and the new authenticator written at bytes
4..20. -/
def radsrv (md5 : List Nat → List Nat) (hm : List Nat → List Nat → List Nat)
    (junk : List Nat) (clients : List ClientConf) (realms : List Realm)
    (rq : Request) (newauth : List Nat) : Action :=
  let buf := rq.buf
  let code := buf.getD 0 0
  let id := buf.getD 1 0
  let len : Int := (RADLEN buf : Int) - 20
  let auth := readAt buf 4 16
  let fromSecret := (clients.getD rq.fromCl default).secret
  if ¬(code = RAD_Access_Request ∨ code = RAD_Status_Server) then .drop
  else if ¬ attrvalidateBuf buf 20 len then .drop
  else
    match (if code = RAD_Access_Request
        then radsrvRealmSection realms buf rq.fromCl id len
        else Sum.inr default) with
    | Sum.inl a => a
    | Sum.inr rs =>
      let maok : Bool :=
        match attrgetBuf buf 20 len RAD_Attr_Message_Authenticator with
        | some moff => attrvallenAt buf moff == 16 &&
            checkmessageauth hm buf (attrvalOff moff) fromSecret
        | none => true
      if ¬ maok then .drop
      else if code = RAD_Status_Server then
        match radsign md5 (respondstatusserver buf) fromSecret with
        | some resp => .reply resp
        | none => .drop
      else
        match rs.2.server with
        | none =>
          match radsign md5 (respondreject buf rs.1.message) fromSecret with
          | some resp => .reply resp
          | none => .drop
        | some _ =>
          let step1 :=
            match attrgetBuf buf 20 len RAD_Attr_User_Password with
            | some poff => pwdSpliceAt md5 junk buf poff
                fromSecret rs.2.secret auth newauth
            | none => some buf
          match step1 with
          | none => .drop
          | some buf2 =>
            let step2 :=
              match attrgetBuf buf2 20 len RAD_Attr_Tunnel_Password with
              | some poff => pwdSpliceAt md5 junk buf2 poff
                  fromSecret rs.2.secret auth newauth
              | none => some buf2
            match step2 with
            | none => .drop
            | some buf3 =>
              .forward rs.2 { rq with
                origid := id, origauth := auth,
                buf := spliceAt buf3 4 newauth }

/-! ### C2: realm with no configured server peer -/

/-- For every validated Access-Request whose User-Name matches a realm
configured without a `server` option, `radsrv` crashes: line 1108
(`to = realm->srvconf->servers;`) dereferences the NULL `srvconf` before
the `if (!to)` check at line 1129 can route to `respondreject`. -/
theorem radsrv_nullsrvconf_crash (md5 : List Nat → List Nat)
    (hm : List Nat → List Nat → List Nat) (junk : List Nat)
    (clients : List ClientConf) (realms : List Realm) (rq : Request)
    (newauth : List Nat) (uoff : Nat) (realm : Realm)
    (hcode : rq.buf.getD 0 0 = RAD_Access_Request)
    (hval : attrvalidateBuf rq.buf 20 ((RADLEN rq.buf : Int) - 20) = true)
    (huoff : attrgetBuf rq.buf 20 ((RADLEN rq.buf : Int) - 20)
      RAD_Attr_User_Name = some uoff)
    (hrealm : id2realm realms (readAt rq.buf (attrvalOff uoff)
      (attrvallenAt rq.buf uoff)) = some realm)
    (hnosrv : realm.srvconf = none) :
    radsrv md5 hm junk clients realms rq newauth = Action.crash := by
  simp only [radsrv, radsrvRealmSection, hcode, hval, huoff, hrealm, hnosrv]
  simp [RAD_Access_Request, RAD_Status_Server]

/-- A realm with no `server` option and `ReplyMessage = "denied"`. -/
def c2realm : Realm :=
  { regexMatch := fun _ => true, srvconf := none,
    message := some [100, 101, 110, 105, 101, 100] }

/-- Access-Request id 0x2a with User-Name "bob". -/
def c2buf : List Nat :=
  [1, 42, 0, 25] ++ List.replicate 16 9 ++ [1, 5, 98, 111, 98]

/-- The request `radsrv` receives for `c2buf`. -/
def c2rq : Request :=
  { buf := c2buf, fromCl := 0, origid := 0, origauth := [], fromsa := 0,
    tries := 0, expiry := 0, received := false }

/-- C2 (code_bug evaluation): a validated Access-Request whose realm has
no configured server peer makes `radsrv` dereference the NULL `srvconf`
(crash) instead of answering with the signed Access-Reject carrying the
realm's ReplyMessage. -/
theorem C2_nullserver_realm_crashes :
    radsrv testmd5 testhmac (List.replicate 16 0)
      [{ secret := [7], typ := Transport.udp }] [c2realm] c2rq
      (List.replicate 16 1) = Action.crash :=
  radsrv_nullsrvconf_crash testmd5 testhmac (List.replicate 16 0)
    [{ secret := [7], typ := Transport.udp }] [c2realm] c2rq
    (List.replicate 16 1) 20 c2realm (by decide) (by decide) (by decide)
    (by rfl) (by rfl)

/-! ### C4: duplicate suppression -/

/-- C4: (i) when the target server's request table already holds an
in-flight request whose origin client and original identifier match the
incoming Access-Request, `radsrv` drops the new packet (it is neither
inserted nor forwarded); (ii) a successful `sendrq` insert makes
`rqinqueue` true for the stored request's origin client and original id,
so the retransmission that arrives while the first request is in flight
is the one that gets dropped — exactly one is forwarded upstream. -/
theorem C4_duplicate_suppression (md5 : List Nat → List Nat)
    (hm : List Nat → List Nat → List Nat) (junk : List Nat)
    (clients : List ClientConf) (realms : List Realm) (rq : Request)
    (newauth : List Nat) (uoff : Nat) (realm : Realm) (sc : SrvConf)
    (srv : Server) (srv0 : Server) (rqx : Request)
    (hnext : srv0.nextid ≤ MAX_REQUESTS) (hbufx : 1 < rqx.buf.length)
    (hcode : rq.buf.getD 0 0 = RAD_Access_Request)
    (hval : attrvalidateBuf rq.buf 20 ((RADLEN rq.buf : Int) - 20) = true)
    (huoff : attrgetBuf rq.buf 20 ((RADLEN rq.buf : Int) - 20)
      RAD_Attr_User_Name = some uoff)
    (hrealm : id2realm realms (readAt rq.buf (attrvalOff uoff)
      (attrvallenAt rq.buf uoff)) = some realm)
    (hsc : realm.srvconf = some sc) (hsrv : sc.server = some srv)
    (hdup : rqinqueue srv rq.fromCl (rq.buf.getD 1 0) = true) :
    radsrv md5 hm junk clients realms rq newauth = Action.drop ∧
    (∀ i srv2, sendrq hm srv0 rqx = (some i, srv2) →
      rqinqueue srv2 rqx.fromCl rqx.origid = true) := by
  constructor
  · simp only [radsrv, radsrvRealmSection, hcode, hval, huoff, hrealm, hsc,
      hsrv, hdup]
    simp [RAD_Access_Request, RAD_Status_Server]
  · intro i srv2 heq
    obtain ⟨-, hlt, -, -, ⟨r, hri, -, hfrom, horig⟩, -, -⟩ :=
      (sendrq_insert_spec hm srv0 rqx hnext hbufx).2 i srv2 heq
    unfold rqinqueue
    refine List.any_eq_true.mpr ⟨i, List.mem_range.mpr hlt, ?_⟩
    rw [hri]
    simp [hfrom, horig]

/-- The in-flight request stored for the C4 witness: origin client 0,
original id 0x2a. -/
def c4stored : Request :=
  { buf := [1, 0, 0, 20] ++ List.replicate 16 9, fromCl := 0, origid := 42,
    origauth := [], fromsa := 0, tries := 1, expiry := 0, received := false }

/-- A server whose slot 0 holds `c4stored`. -/
def c4srv : Server :=
  { secret := [5], typ := Transport.udp, statusserver := false,
    requests := fun j => if j = 0 then some c4stored else none, nextid := 1 }

/-- The conf wrapping `c4srv`. -/
def c4sc : SrvConf :=
  { secret := [5], typ := Transport.udp, statusserver := false,
    server := some c4srv }

/-- A catch-all realm routing to `c4sc`. -/
def c4realm : Realm :=
  { regexMatch := fun _ => true, srvconf := some c4sc, message := none }

/-- The retransmitted Access-Request: same client 0, same id 0x2a. -/
def c4rq : Request :=
  { buf := c2buf, fromCl := 0, origid := 0, origauth := [], fromsa := 0,
    tries := 0, expiry := 0, received := false }

/-- Witness for C4: the retransmit is dropped, and an insert makes the
duplicate check fire. -/
theorem C4_duplicate_suppression_witness :
    radsrv testmd5 testhmac (List.replicate 16 0)
      [{ secret := [7], typ := Transport.udp }] [c4realm] c4rq
      (List.replicate 16 1) = Action.drop ∧
    (∀ i srv2, sendrq testhmac wsrv wrq = (some i, srv2) →
      rqinqueue srv2 wrq.fromCl wrq.origid = true) :=
  C4_duplicate_suppression testmd5 testhmac (List.replicate 16 0)
    [{ secret := [7], typ := Transport.udp }] [c4realm] c4rq
    (List.replicate 16 1) 20 c4realm c4sc c4srv wsrv wrq
    (by decide) (by decide) (by decide) (by decide) (by decide)
    (by rfl) (by rfl) (by rfl) (by decide)

/-! ### MS-MPPE key encryption (msmppencrypt / msmppdecrypt) -/

/-- The chained blocks of `msmppencrypt` (src/radsecproxy.c:803-827):
block k is XORed with `MD5(shared ‖ previous ciphertext block)` — the
loop reads `text + offset - 16`, which encryption has already overwritten
in place. -/
def msmppencryptGo (md5 : List Nat → List Nat) (shared : List Nat) :
    List Nat → List (List Nat) → List (List Nat)
  | _, [] => []
  | prev, blk :: rest =>
    let c := xorblock (md5 (shared ++ prev)) blk
    c :: msmppencryptGo md5 shared c rest

/-- `msmppencrypt` (src/radsecproxy.c:753-838): the first block is XORed
with `MD5(shared ‖ auth ‖ salt)`, later blocks chain on the previous
ciphertext block. -/
def msmppencrypt (md5 : List Nat → List Nat)
    (shared auth salt text : List Nat) : List Nat :=
  match chunk16 text with
  | [] => []
  | b0 :: rest =>
    let c0 := xorblock (md5 (shared ++ auth ++ salt)) b0
    (c0 :: msmppencryptGo md5 shared c0 rest).flatten

/-- The chained blocks of `msmppdecrypt` (src/radsecproxy.c:891-915):
here the plaintext goes to a separate `plain` buffer, so
`text + offset - 16` is the previous ciphertext block of the input. -/
def msmppdecryptGo (md5 : List Nat → List Nat) (shared : List Nat) :
    List Nat → List (List Nat) → List (List Nat)
  | _, [] => []
  | prev, blk :: rest =>
    let p := xorblock (md5 (shared ++ prev)) blk
    p :: msmppdecryptGo md5 shared blk rest

/-- `msmppdecrypt` (src/radsecproxy.c:840-927). -/
def msmppdecrypt (md5 : List Nat → List Nat)
    (shared auth salt text : List Nat) : List Nat :=
  match chunk16 text with
  | [] => []
  | b0 :: rest =>
    (xorblock (md5 (shared ++ auth ++ salt)) b0 ::
      msmppdecryptGo md5 shared b0 rest).flatten

/-- `msmpprecrypt` (src/radsecproxy.c:995-1007) applied to the attribute
at `aoff`: fail when the value is shorter than 18 bytes, otherwise
decrypt the bytes after the 2-byte salt under the old secret and old
authenticator and re-encrypt under the new secret and new authenticator,
in place. -/
def msmpprecrypt (md5 : List Nat → List Nat) (buf : List Nat) (aoff : Nat)
    (oldsecret newsecret oldauth newauth : List Nat) : Option (List Nat) :=
  let voff := attrvalOff aoff
  let vlen := attrvallenAt buf aoff
  if vlen < 18 then none
  else
    let salt := readAt buf voff 2
    let cipher := readAt buf (voff + 2) (vlen - 2)
    let plain := msmppdecrypt md5 oldsecret oldauth salt cipher
    some (spliceAt buf (voff + 2)
      (msmppencrypt md5 newsecret newauth salt plain))

/-- `msmppe` (src/radsecproxy.c:1009-1019): walk the vendor sub-attribute
region from `cur`, re-encrypting the value of every sub-attribute of type
`ty`; abort the packet on any `msmpprecrypt` failure.  `base`/`subLen`
reproduce `length - (attr - attrs)`. -/
def msmppe (md5 : List Nat → List Nat) (base : Nat) (subLen : Int)
    (ty : Nat) (oldsecret newsecret oldauth newauth : List Nat) :
    Nat → List Nat → Nat → Option (List Nat)
  | 0, _, _ => none
  | fuel + 1, buf, cur =>
    match attrgetBuf buf cur (subLen - ((cur : Int) - base)) ty with
    | none => some buf
    | some aoff =>
      match msmpprecrypt md5 buf aoff oldsecret newsecret oldauth newauth with
      | none => none
      | some buf2 =>
        msmppe md5 base subLen ty oldsecret newsecret oldauth newauth fuel
          buf2 (aoff + attrlenAt buf2 aoff)

/-- The Vendor-Specific scan of `clientrd` (src/radsecproxy.c:1268-1290):
walk the Vendor-Specific attributes of the reply; a value of at most 4
bytes breaks the loop with a non-NULL `attr` (whole packet discarded,
`none`), a non-Microsoft vendor id (bytes 2..6 of the attribute ≠
0,0,1,55 i.e. 311 big-endian over 4 bytes) is skipped, and a Microsoft
one has its MS-MPPE-Send-Key and MS-MPPE-Recv-Key sub-attributes
re-encrypted from the upstream secret to the originating client's secret;
any failure also breaks with `attr` non-NULL (`none`). -/
def mppescan (md5 : List Nat → List Nat) (len : Int)
    (oldsecret newsecret reqauth origauth : List Nat) :
    Nat → List Nat → Nat → Option (List Nat)
  | 0, _, _ => none
  | fuel + 1, buf, cur =>
    match attrgetBuf buf cur (len - ((cur : Int) - 20))
        RAD_Attr_Vendor_Specific with
    | none => some buf
    | some aoff =>
      if attrvallenAt buf aoff ≤ 4 then none
      else if ¬(buf.getD (aoff + 2) 0 = 0 ∧ buf.getD (aoff + 3) 0 = 0 ∧
          256 * buf.getD (aoff + 4) 0 + buf.getD (aoff + 5) 0 = 311) then
        mppescan md5 len oldsecret newsecret reqauth origauth fuel buf
          (aoff + attrlenAt buf aoff)
      else
        let subOff := attrvalOff aoff + 4
        let subLen : Int := (attrvallenAt buf aoff : Int) - 4
        if ¬ attrvalidateBuf buf subOff subLen then none
        else
          match msmppe md5 subOff subLen RAD_VS_ATTR_MS_MPPE_Send_Key
              oldsecret newsecret reqauth origauth (buf.length + 1) buf
              subOff with
          | none => none
          | some bufa =>
            match msmppe md5 subOff subLen RAD_VS_ATTR_MS_MPPE_Recv_Key
                oldsecret newsecret reqauth origauth (bufa.length + 1) bufa
                subOff with
            | none => none
            | some bufb =>
              mppescan md5 len oldsecret newsecret reqauth origauth fuel
                bufb (aoff + attrlenAt bufb aoff)

/-! ### clientrd: processing one upstream reply -/

/-- What the receiver does with one packet read from the upstream
transport. -/
inductive RdResult where
  | discard
  | statusRecv (i : Nat)
  | deliver (fromCl : Nat) (buf : List Nat) (usesa : Bool)
deriving DecidableEq

/-- The tail of `clientrd` (src/radsecproxy.c:1307-1329): restore
`header[1] = origid` and `header[4..20] = origauth`, recompute the
Message-Authenticator under the originating client's secret when the
attribute was present, then hand the reply to that client's queue. -/
def clientrdFinish (hm : List Nat → List Nat → List Nat)
    (clients : List ClientConf) (req : Request) (buf2 : List Nat)
    (moff : Option Nat) : RdResult :=
  let fromConf := clients.getD req.fromCl default
  let buf3 := spliceAt (buf2.set 1 req.origid) 4 req.origauth
  match moff with
  | some m =>
    match createmessageauth hm buf3 (attrvalOff m) fromConf.secret with
    | none => .discard
    | some buf4 =>
      .deliver req.fromCl buf4 (fromConf.typ = Transport.udp)
  | none => .deliver req.fromCl buf3 (fromConf.typ = Transport.udp)

/-- One iteration of `clientrd`'s read loop
(src/radsecproxy.c:1188-1329) on a packet `buf` read from server `srv`:
code filter; pending-slot lookup by `buf[1]` requiring a buffered request
with `tries ≥ 1` and `received` unset; Response Authenticator
verification against the stored request's authenticator; attribute
validation; Message-Authenticator verification with the stored request's
authenticator substituted into bytes 4..20; Status-Server handling; the
Vendor-Specific MS-MPPE rescan; then `clientrdFinish`. -/
def clientrdStep (md5 : List Nat → List Nat)
    (hm : List Nat → List Nat → List Nat) (clients : List ClientConf)
    (srv : Server) (buf : List Nat) : RdResult :=
  let i := buf.getD 1 0
  let code := buf.getD 0 0
  if ¬(code = RAD_Access_Accept ∨ code = RAD_Access_Reject ∨
      code = RAD_Access_Challenge) then .discard
  else
    match srv.requests i with
    | none => .discard
    | some req =>
      if req.tries = 0 then .discard
      else if req.received then .discard
      else if ¬ validauth md5 buf (readAt req.buf 4 16) srv.secret then
        .discard
      else
        let len : Int := (RADLEN buf : Int) - 20
        if ¬ attrvalidateBuf buf 20 len then .discard
        else
          let moff := attrgetBuf buf 20 len RAD_Attr_Message_Authenticator
          if (match moff with
              | some m => attrvallenAt buf m != 16
              | none => false) then .discard
          else if (match moff with
              | some m => ! checkmessageauth hm
                  (spliceAt buf 4 (readAt req.buf 4 16)) (attrvalOff m)
                  srv.secret
              | none => false) then .discard
          else if req.buf.getD 0 0 = RAD_Status_Server then .statusRecv i
          else
            match mppescan md5 len srv.secret
                (clients.getD req.fromCl default).secret
                (readAt req.buf 4 16) req.origauth (buf.length + 1) buf
                20 with
            | none => .discard
            | some buf2 => clientrdFinish hm clients req buf2 moff

/-! ### clientwr: the sender's sweep of one slot -/

/-- Modelled from the spec (missing header radsecproxy.h):
`STATUS_SERVER_PERIOD`, "Status-Server period (25 s + 0..7 s jitter)". -/
def STATUS_SERVER_PERIOD : Nat := 25

/-- The retry limit clientwr compares `tries` against
(src/radsecproxy.c:1422-1423): 1 for Status-Server probes and TLS
servers, `REQUEST_RETRIES` (3) otherwise. -/
def retrylimit (typ : Transport) (code : Nat) : Nat :=
  if code = RAD_Status_Server ∨ typ = Transport.tls then 1
  else REQUEST_RETRIES

/-- The per-try expiry increment (src/radsecproxy.c:1435-1437):
`REQUEST_EXPIRY` for Status-Server probes and TLS servers,
`REQUEST_EXPIRY / REQUEST_RETRIES` otherwise. -/
def pertryinterval (typ : Transport) (code : Nat) : Nat :=
  if code = RAD_Status_Server ∨ typ = Transport.tls then REQUEST_EXPIRY
  else REQUEST_EXPIRY / REQUEST_RETRIES

/-- What the sweep does to one occupied slot. -/
inductive SweepResult where
  | freed (suspect : Bool)
  | pending
  | transmitted (r : Request)

/-- One occupied slot of `clientwr`'s sweep
(src/radsecproxy.c:1400-1442): free a received slot; leave an unexpired
slot alone; free a slot whose `tries` has reached the retry limit
(logging the peer suspect when the dead request was a Status-Server
probe); otherwise bump `expiry`, increment `tries` and transmit. -/
def clientwrSweepSlot (typ : Transport) (now : Int) (r : Request) :
    SweepResult :=
  if r.received then .freed false
  else if now < r.expiry then .pending
  else if r.tries = retrylimit typ (r.buf.getD 0 0) then
    .freed (r.buf.getD 0 0 = RAD_Status_Server)
  else
    .transmitted { r with
      tries := r.tries + 1,
      expiry := now + (pertryinterval typ (r.buf.getD 0 0) : Int) }

/-! ### C8: retry limits -/

/-- C8: for an unreceived, expired slot whose `tries` is within the
limit: when `tries` has reached the limit the sweep frees the slot, and
the suspect warning fires exactly for a Status-Server probe; a
transmission happens only while `tries` is strictly below the limit and
increments `tries` and sets `expiry = now + per-try interval`; the limit
and per-try interval are 3 and `REQUEST_EXPIRY / 3` for a plain UDP
request, and 1 and `REQUEST_EXPIRY` for a TLS server or a Status-Server
probe — so a UDP request is transmitted at most 3 times and a TLS
request or Status-Server probe at most once before the slot is freed. -/
theorem C8_clientwr_retry_policy (typ : Transport) (now : Int)
    (r : Request) (hrec : r.received = false) (hexp : r.expiry ≤ now)
    (hinv : r.tries ≤ retrylimit typ (r.buf.getD 0 0)) :
    (r.tries = retrylimit typ (r.buf.getD 0 0) →
       clientwrSweepSlot typ now r =
         SweepResult.freed (r.buf.getD 0 0 = RAD_Status_Server)) ∧
    (∀ r', clientwrSweepSlot typ now r = SweepResult.transmitted r' →
       r.tries < retrylimit typ (r.buf.getD 0 0) ∧
       r'.tries = r.tries + 1 ∧
       r'.expiry = now + (pertryinterval typ (r.buf.getD 0 0) : Int)) ∧
    (typ = Transport.udp → r.buf.getD 0 0 ≠ RAD_Status_Server →
       retrylimit typ (r.buf.getD 0 0) = 3 ∧
       pertryinterval typ (r.buf.getD 0 0) = REQUEST_EXPIRY / 3) ∧
    ((typ = Transport.tls ∨ r.buf.getD 0 0 = RAD_Status_Server) →
       retrylimit typ (r.buf.getD 0 0) = 1 ∧
       pertryinterval typ (r.buf.getD 0 0) = REQUEST_EXPIRY) := by
  refine ⟨?_, ?_, ?_, ?_⟩
  · intro h
    unfold clientwrSweepSlot
    rw [if_neg (by simp [hrec]), if_neg (by omega), if_pos h]
  · intro r' h
    unfold clientwrSweepSlot at h
    rw [if_neg (by simp [hrec]), if_neg (by omega)] at h
    by_cases htries : r.tries = retrylimit typ (r.buf.getD 0 0)
    · rw [if_pos htries] at h
      exact absurd h (by simp)
    · rw [if_neg htries] at h
      injection h with h
      subst h
      exact ⟨by omega, rfl, rfl⟩
  · intro h1 h2
    subst h1
    unfold retrylimit pertryinterval REQUEST_RETRIES
    rw [if_neg (fun hc => hc.elim h2 fun ht => Transport.noConfusion ht),
      if_neg (fun hc => hc.elim h2 fun ht => Transport.noConfusion ht)]
    exact ⟨rfl, rfl⟩
  · intro h1
    unfold retrylimit pertryinterval
    rcases h1 with h1 | h1
    · subst h1
      rw [if_pos (Or.inr rfl), if_pos (Or.inr rfl)]
      exact ⟨rfl, rfl⟩
    · rw [if_pos (Or.inl h1), if_pos (Or.inl h1)]
      exact ⟨rfl, rfl⟩

/-- An expired Status-Server probe slot (one try already made). -/
def c8probe : Request :=
  { buf := [12, 7, 0, 38] ++ List.replicate 16 3 ++ [80, 18] ++
      List.replicate 16 0,
    fromCl := 0, origid := 0, origauth := [], fromsa := 0, tries := 1,
    expiry := 30, received := false }

/-- Witness for C8: a Status-Server probe on a UDP server with
`tries = 1` is freed (suspect) and is never retransmitted. -/
theorem C8_clientwr_retry_policy_witness :
    (c8probe.tries = retrylimit Transport.udp (c8probe.buf.getD 0 0) →
       clientwrSweepSlot Transport.udp 60 c8probe =
         SweepResult.freed (c8probe.buf.getD 0 0 = RAD_Status_Server)) ∧
    (∀ r', clientwrSweepSlot Transport.udp 60 c8probe =
        SweepResult.transmitted r' →
       c8probe.tries < retrylimit Transport.udp (c8probe.buf.getD 0 0) ∧
       r'.tries = c8probe.tries + 1 ∧
       r'.expiry = 60 +
         (pertryinterval Transport.udp (c8probe.buf.getD 0 0) : Int)) ∧
    (Transport.udp = Transport.udp →
       c8probe.buf.getD 0 0 ≠ RAD_Status_Server →
       retrylimit Transport.udp (c8probe.buf.getD 0 0) = 3 ∧
       pertryinterval Transport.udp (c8probe.buf.getD 0 0) =
         REQUEST_EXPIRY / 3) ∧
    ((Transport.udp = Transport.tls ∨
        c8probe.buf.getD 0 0 = RAD_Status_Server) →
       retrylimit Transport.udp (c8probe.buf.getD 0 0) = 1 ∧
       pertryinterval Transport.udp (c8probe.buf.getD 0 0) =
         REQUEST_EXPIRY) :=
  C8_clientwr_retry_policy Transport.udp 60 c8probe (by decide) (by decide)
    (by decide)

/-! ### C5: conditions for delivering an upstream reply -/

/-- C5: the receiver hands a reply to the originating client's queue only
when the reply code is Access-Accept, Access-Reject or Access-Challenge,
the identifier selects an occupied pending slot with `tries ≥ 1` whose
`received` flag is still clear, and the Response Authenticator verifies
against the stored request's authenticator and the server's secret. -/
theorem C5_clientrd_deliver_conditions (md5 : List Nat → List Nat)
    (hm : List Nat → List Nat → List Nat) (clients : List ClientConf)
    (srv : Server) (buf : List Nat) (f : Nat) (out : List Nat) (sa : Bool)
    (h : clientrdStep md5 hm clients srv buf = RdResult.deliver f out sa) :
    (buf.getD 0 0 = RAD_Access_Accept ∨ buf.getD 0 0 = RAD_Access_Reject ∨
      buf.getD 0 0 = RAD_Access_Challenge) ∧
    ∃ req, srv.requests (buf.getD 1 0) = some req ∧ req.tries ≠ 0 ∧
      req.received = false ∧
      validauth md5 buf (readAt req.buf 4 16) srv.secret = true := by
  simp only [clientrdStep] at h
  split at h
  · exact absurd h (by simp)
  · rename_i hcode
    rw [not_not] at hcode
    split at h
    · exact absurd h (by simp)
    · rename_i req hreq
      split at h
      · exact absurd h (by simp)
      · rename_i htries
        split at h
        · exact absurd h (by simp)
        · rename_i hrecv
          split at h
          · exact absurd h (by simp)
          · rename_i hvalid
            rw [not_not] at hvalid
            refine ⟨hcode, req, hreq, htries, by simpa using hrecv, hvalid⟩

/-- Stored pending request for the receiver-side witnesses: slot 5,
origin client 0, original id 9, original authenticator of 4s; the
forwarded request's authenticator was all 2s. -/
def c5req : Request :=
  { buf := [1, 5, 0, 20] ++ List.replicate 16 2, fromCl := 0, origid := 9,
    origauth := List.replicate 16 4, fromsa := 0, tries := 1, expiry := 0,
    received := false }

/-- A server (secret `[3]`) whose slot 5 holds `c5req`. -/
def c5srv : Server :=
  { secret := [3], typ := Transport.udp, statusserver := false,
    requests := fun j => if j = 5 then some c5req else none, nextid := 6 }

/-- The client peers for the receiver-side witnesses. -/
def wclients : List ClientConf := [{ secret := [7], typ := Transport.udp }]

/-- An Access-Accept whose Response Authenticator verifies under
`testmd5` against `c5req`'s stored authenticator and `c5srv`'s secret. -/
def c5reply : List Nat := [2, 5, 0, 20] ++ List.replicate 16 62

/-- Witness for C5: a fully valid Access-Accept is delivered, and the
delivery conditions hold. -/
theorem C5_clientrd_deliver_conditions_witness :
    (c5reply.getD 0 0 = RAD_Access_Accept ∨
      c5reply.getD 0 0 = RAD_Access_Reject ∨
      c5reply.getD 0 0 = RAD_Access_Challenge) ∧
    ∃ req, c5srv.requests (c5reply.getD 1 0) = some req ∧ req.tries ≠ 0 ∧
      req.received = false ∧
      validauth testmd5 c5reply (readAt req.buf 4 16) c5srv.secret = true :=
  C5_clientrd_deliver_conditions testmd5 testhmac wclients c5srv c5reply
    0 ([2, 9, 0, 20] ++ List.replicate 16 4) true (by decide)

/-! ### C10: short Vendor-Specific attribute aborts the reply -/

/-- C10: in the receiver's vendor-specific scan, a Vendor-Specific
attribute whose value length is ≤ 4 — whatever its vendor-id bytes —
makes the scan stop with the attribute pointer non-null (`none` here),
and the whole reply is then discarded and never delivered.  The
hypotheses are the checks the reply passed to reach the scan (no
Message-Authenticator present, not a Status-Server exchange), with the
short Vendor-Specific attribute being the first one the scan meets. -/
theorem C10_vendor_specific_short_aborts (md5 : List Nat → List Nat)
    (hm : List Nat → List Nat → List Nat) (clients : List ClientConf)
    (srv : Server) (buf : List Nat) (req : Request) (aoff : Nat)
    (hcode : buf.getD 0 0 = RAD_Access_Accept ∨
      buf.getD 0 0 = RAD_Access_Reject ∨
      buf.getD 0 0 = RAD_Access_Challenge)
    (hreq : srv.requests (buf.getD 1 0) = some req)
    (htries : req.tries ≠ 0) (hrecv : req.received = false)
    (hvalid : validauth md5 buf (readAt req.buf 4 16) srv.secret = true)
    (hattrs : attrvalidateBuf buf 20 ((RADLEN buf : Int) - 20) = true)
    (hnoma : attrgetBuf buf 20 ((RADLEN buf : Int) - 20)
      RAD_Attr_Message_Authenticator = none)
    (hnostatus : req.buf.getD 0 0 ≠ RAD_Status_Server)
    (hvs : attrgetBuf buf 20 ((RADLEN buf : Int) - 20)
      RAD_Attr_Vendor_Specific = some aoff)
    (hshort : attrvallenAt buf aoff ≤ 4) :
    mppescan md5 ((RADLEN buf : Int) - 20) srv.secret
      (clients.getD req.fromCl default).secret (readAt req.buf 4 16)
      req.origauth (buf.length + 1) buf 20 = none ∧
    clientrdStep md5 hm clients srv buf = RdResult.discard := by
  have hscan : mppescan md5 ((RADLEN buf : Int) - 20) srv.secret
      (clients.getD req.fromCl default).secret (readAt req.buf 4 16)
      req.origauth (buf.length + 1) buf 20 = none := by
    rw [mppescan]
    have h20 : ((RADLEN buf : Int) - 20) - (((20 : Nat) : Int) - 20) =
        ((RADLEN buf : Int) - 20) := by omega
    rw [h20, hvs]
    simp [hshort]
  refine ⟨hscan, ?_⟩
  simp only [clientrdStep, hreq]
  rw [if_neg (not_not_intro hcode), if_neg htries,
    if_neg (by simp [hrecv]), if_neg (not_not_intro hvalid),
    if_neg (not_not_intro hattrs)]
  simp only [hnoma]
  rw [if_neg (by simp), if_neg (by simp), if_neg hnostatus, hscan]

/-- An Access-Accept carrying one Vendor-Specific attribute of total
length 6 (value length 4) with a non-Microsoft vendor id, whose Response
Authenticator verifies under `testmd5`. -/
def c10reply : List Nat :=
  [2, 5, 0, 26] ++ List.replicate 16 136 ++ [26, 6, 9, 9, 9, 9]

/-- Witness for C10: the scan aborts on the short Vendor-Specific
attribute and the reply is discarded. -/
theorem C10_vendor_specific_short_aborts_witness :
    mppescan testmd5 ((RADLEN c10reply : Int) - 20) c5srv.secret
      (wclients.getD c5req.fromCl default).secret (readAt c5req.buf 4 16)
      c5req.origauth (c10reply.length + 1) c10reply 20 = none ∧
    clientrdStep testmd5 testhmac wclients c5srv c10reply =
      RdResult.discard :=
  C10_vendor_specific_short_aborts testmd5 testhmac wclients c5srv
    c10reply c5req 20 (by decide) (by decide) (by decide) (by decide)
    (by decide) (by decide) (by decide) (by decide) (by decide) (by decide)

/-! ### Length preservation of the in-place MS-MPPE re-encryption -/

theorem length_readAt_eq (buf : List Nat) (a n : Nat) :
    (readAt buf a n).length = min n (buf.length - a) := by
  simp [readAt]

theorem length_spliceAt_le {buf repl : List Nat} {off : Nat}
    (h : repl.length ≤ buf.length - off) :
    (spliceAt buf off repl).length = buf.length := by
  rw [length_spliceAt_formula]
  omega

theorem chunk16_blocks_le (l : List Nat) :
    ∀ b ∈ chunk16 l, b.length ≤ 16 := by
  rw [chunk16]
  split
  · simp
  · intro b hb
    rcases List.mem_cons.mp hb with rfl | hb
    · simp [List.length_take]
    · exact chunk16_blocks_le (l.drop 16) b hb
termination_by l.length
decreasing_by
  simp only [List.length_drop]
  have hne : l ≠ [] := by assumption
  have := List.length_pos.mpr hne
  omega

theorem chunk16_flatten (l : List Nat) : (chunk16 l).flatten = l := by
  rw [chunk16]
  split
  · simp_all
  · rw [List.flatten_cons, chunk16_flatten (l.drop 16),
      List.take_append_drop]
termination_by l.length
decreasing_by
  simp only [List.length_drop]
  have hne : l ≠ [] := by assumption
  have := List.length_pos.mpr hne
  omega

theorem length_msmppencryptGo (md5 : List Nat → List Nat)
    (hok : ∀ x, (md5 x).length = 16) (shared : List Nat) :
    ∀ (prev : List Nat) (bs : List (List Nat)),
      (∀ b ∈ bs, b.length ≤ 16) →
      ((msmppencryptGo md5 shared prev bs).flatten).length =
        (bs.flatten).length := by
  intro prev bs
  induction bs generalizing prev with
  | nil => intro _; rfl
  | cons b rest ih =>
    intro hb
    simp only [msmppencryptGo, List.flatten_cons, List.length_append]
    rw [ih _ fun x hx => hb x (List.mem_cons_of_mem _ hx)]
    have hxb : (xorblock (md5 (shared ++ prev)) b).length = b.length := by
      simp only [xorblock, List.length_zipWith, hok]
      have := hb b (List.mem_cons_self _ _)
      omega
    omega

theorem length_msmppdecryptGo (md5 : List Nat → List Nat)
    (hok : ∀ x, (md5 x).length = 16) (shared : List Nat) :
    ∀ (prev : List Nat) (bs : List (List Nat)),
      (∀ b ∈ bs, b.length ≤ 16) →
      ((msmppdecryptGo md5 shared prev bs).flatten).length =
        (bs.flatten).length := by
  intro prev bs
  induction bs generalizing prev with
  | nil => intro _; rfl
  | cons b rest ih =>
    intro hb
    simp only [msmppdecryptGo, List.flatten_cons, List.length_append]
    rw [ih _ fun x hx => hb x (List.mem_cons_of_mem _ hx)]
    have hxb : (xorblock (md5 (shared ++ prev)) b).length = b.length := by
      simp only [xorblock, List.length_zipWith, hok]
      have := hb b (List.mem_cons_self _ _)
      omega
    omega

theorem length_msmppencrypt (md5 : List Nat → List Nat)
    (hok : ∀ x, (md5 x).length = 16) (shared auth salt text : List Nat) :
    (msmppencrypt md5 shared auth salt text).length = text.length := by
  rcases hc : chunk16 text with _ | ⟨b0, rest⟩
  · have hflat := chunk16_flatten text
    rw [hc] at hflat
    simp only [List.flatten_nil] at hflat
    subst hflat
    simp [msmppencrypt, hc]
  · have hble := chunk16_blocks_le text
    rw [hc] at hble
    have hflat := chunk16_flatten text
    rw [hc] at hflat
    simp only [msmppencrypt, hc, List.flatten_cons, List.length_append]
    rw [length_msmppencryptGo md5 hok shared _ rest
      fun b hb => hble b (List.mem_cons_of_mem _ hb)]
    have h0 : (xorblock (md5 (shared ++ auth ++ salt)) b0).length =
        b0.length := by
      simp only [xorblock, List.length_zipWith, hok]
      have := hble b0 (List.mem_cons_self _ _)
      omega
    have h1 : b0.length + rest.flatten.length = text.length := by
      rw [← hflat, List.flatten_cons, List.length_append]
    omega

theorem length_msmppdecrypt (md5 : List Nat → List Nat)
    (hok : ∀ x, (md5 x).length = 16) (shared auth salt text : List Nat) :
    (msmppdecrypt md5 shared auth salt text).length = text.length := by
  rcases hc : chunk16 text with _ | ⟨b0, rest⟩
  · have hflat := chunk16_flatten text
    rw [hc] at hflat
    simp only [List.flatten_nil] at hflat
    subst hflat
    simp [msmppdecrypt, hc]
  · have hble := chunk16_blocks_le text
    rw [hc] at hble
    have hflat := chunk16_flatten text
    rw [hc] at hflat
    simp only [msmppdecrypt, hc, List.flatten_cons, List.length_append]
    rw [length_msmppdecryptGo md5 hok shared _ rest
      fun b hb => hble b (List.mem_cons_of_mem _ hb)]
    have h0 : (xorblock (md5 (shared ++ auth ++ salt)) b0).length =
        b0.length := by
      simp only [xorblock, List.length_zipWith, hok]
      have := hble b0 (List.mem_cons_self _ _)
      omega
    have h1 : b0.length + rest.flatten.length = text.length := by
      rw [← hflat, List.flatten_cons, List.length_append]
    omega

theorem length_msmpprecrypt (md5 : List Nat → List Nat)
    (hok : ∀ x, (md5 x).length = 16) {buf b2 : List Nat} {aoff : Nat}
    {os ns oa na : List Nat}
    (h : msmpprecrypt md5 buf aoff os ns oa na = some b2) :
    b2.length = buf.length := by
  simp only [msmpprecrypt] at h
  split at h
  · exact absurd h (by simp)
  · injection h with h
    subst h
    rw [length_spliceAt_le]
    rw [length_msmppencrypt md5 hok, length_msmppdecrypt md5 hok,
      length_readAt_eq]
    omega

theorem length_msmppe (md5 : List Nat → List Nat)
    (hok : ∀ x, (md5 x).length = 16) (base : Nat) (subLen : Int)
    (ty : Nat) (os ns oa na : List Nat) :
    ∀ (fuel : Nat) (buf : List Nat) (cur : Nat) (b2 : List Nat),
      msmppe md5 base subLen ty os ns oa na fuel buf cur = some b2 →
      b2.length = buf.length := by
  intro fuel
  induction fuel with
  | zero =>
    intro buf cur b2 h
    exact absurd h (by simp [msmppe])
  | succ fuel ih =>
    intro buf cur b2 h
    simp only [msmppe] at h
    split at h
    · injection h with h
      subst h
      rfl
    · split at h
      · exact absurd h (by simp)
      · rename_i bufx hrc
        have h1 := length_msmpprecrypt md5 hok hrc
        have h2 := ih bufx _ b2 h
        omega

theorem length_mppescan (md5 : List Nat → List Nat)
    (hok : ∀ x, (md5 x).length = 16) (len : Int) (os ns ra oa : List Nat) :
    ∀ (fuel : Nat) (buf : List Nat) (cur : Nat) (b2 : List Nat),
      mppescan md5 len os ns ra oa fuel buf cur = some b2 →
      b2.length = buf.length := by
  intro fuel
  induction fuel with
  | zero =>
    intro buf cur b2 h
    exact absurd h (by simp [mppescan])
  | succ fuel ih =>
    intro buf cur b2 h
    simp only [mppescan] at h
    split at h
    · injection h with h
      subst h
      rfl
    · split at h
      · exact absurd h (by simp)
      · split at h
        · exact ih buf _ b2 h
        · split at h
          · exact absurd h (by simp)
          · split at h
            · exact absurd h (by simp)
            · rename_i bufa ha
              split at h
              · exact absurd h (by simp)
              · rename_i bufb hb
                have h1 := length_msmppe md5 hok _ _ _ _ _ _ _ _ _ _ _ ha
                have h2 := length_msmppe md5 hok _ _ _ _ _ _ _ _ _ _ _ hb
                have h3 := ih bufb _ b2 h
                omega

/-! ### Message-Authenticator helper lemmas for the delivered reply -/

/-- A buffer filled by `createmessageauth` verifies with
`checkmessageauth` under the same secret. -/
theorem check_of_create (hm : List Nat → List Nat → List Nat)
    {buf secret fbuf : List Nat} {off : Nat}
    (hoff : 4 ≤ off) (hin : off + 16 ≤ buf.length)
    (hf : createmessageauth hm buf off secret = some fbuf) :
    checkmessageauth hm fbuf off secret = true := by
  simp only [createmessageauth] at hf
  split at hf
  case isFalse => exact absurd hf (by simp)
  case isTrue hlen16 =>
  injection hf with hf
  subst hf
  have hinz : off + (List.replicate 16 (0 : Nat)).length ≤ buf.length := by
    simpa using hin
  set Z := spliceAt buf off (List.replicate 16 0) with hZ
  set hash := hm secret (machashInput buf off) with hhash
  have hZlen : Z.length = buf.length := length_spliceAt hinz
  have hinh : off + hash.length ≤ Z.length := by
    rw [hlen16, hZlen]
    omega
  have hZZ : spliceAt Z off (List.replicate 16 0) = Z := by
    rw [hZ, spliceAt_spliceAt (by simp) hinz]
  have hmach : machashInput (spliceAt Z off hash) off =
      machashInput buf off := by
    simp only [machashInput]
    rw [spliceAt_spliceAt (by rw [hlen16]; simp) hinh, hZZ]
  have hread : readAt (spliceAt Z off hash) off 16 = hash := by
    have h := readAt_spliceAt_self hinh
    rwa [hlen16] at h
  simp only [checkmessageauth, checkmessageauthRun, hmach, hread, ← hhash]
  simp [hlen16]

/-- Bytes entirely before the Message-Authenticator value survive
`createmessageauth`. -/
theorem readAt_createmessageauth_before (hm : List Nat → List Nat → List Nat)
    {buf b2 secret : List Nat} {off a n : Nat}
    (hcut : a + n ≤ off) (hin : off + 16 ≤ buf.length)
    (h : createmessageauth hm buf off secret = some b2) :
    readAt b2 a n = readAt buf a n := by
  simp only [createmessageauth] at h
  split at h
  case isFalse => exact absurd h (by simp)
  case isTrue hlen16 =>
  injection h with h
  subst h
  have hz : (spliceAt buf off (List.replicate 16 0)).length = buf.length :=
    length_spliceAt (by simpa using hin)
  rw [readAt_spliceAt_before hcut (by rw [hlen16, hz]; omega),
    readAt_spliceAt_before hcut (by simpa using hin)]

/-- `createmessageauth` preserves the buffer length. -/
theorem length_createmessageauth (hm : List Nat → List Nat → List Nat)
    {buf b2 secret : List Nat} {off : Nat}
    (hin : off + 16 ≤ buf.length)
    (h : createmessageauth hm buf off secret = some b2) :
    b2.length = buf.length := by
  simp only [createmessageauth] at h
  split at h
  case isFalse => exact absurd h (by simp)
  case isTrue hlen16 =>
  injection h with h
  subst h
  have hz : (spliceAt buf off (List.replicate 16 0)).length = buf.length :=
    length_spliceAt (by simpa using hin)
  rw [length_spliceAt (by rw [hlen16, hz]; omega), hz]

/-! ### C6: the delivered reply carries the original id and authenticator -/

/-- C6: every reply `clientrd` delivers to an originating client carries
that client's original identifier in header byte 1 and the original
16-byte Request Authenticator in bytes 4..20; and when the reply contains
a Message-Authenticator attribute, the delivered buffer's
Message-Authenticator verifies under the originating client's secret —
it was recomputed by `createmessageauth` over the rewritten buffer. -/
theorem C6_clientrd_reply_restores_origin (md5 : List Nat → List Nat)
    (hm : List Nat → List Nat → List Nat) (clients : List ClientConf)
    (srv : Server) (buf : List Nat) (req : Request) (f : Nat)
    (out : List Nat) (sa : Bool)
    (hok : ∀ x, (md5 x).length = 16)
    (hreq : srv.requests (buf.getD 1 0) = some req)
    (hlen : 20 ≤ buf.length)
    (horiglen : req.origauth.length = 16)
    (hmabound : ∀ m, attrgetBuf buf 20 ((RADLEN buf : Int) - 20)
      RAD_Attr_Message_Authenticator = some m →
      20 ≤ m ∧ m + 18 ≤ buf.length)
    (h : clientrdStep md5 hm clients srv buf = RdResult.deliver f out sa) :
    out.getD 1 0 = req.origid ∧ readAt out 4 16 = req.origauth ∧
    ∀ m, attrgetBuf buf 20 ((RADLEN buf : Int) - 20)
        RAD_Attr_Message_Authenticator = some m →
      checkmessageauth hm out (attrvalOff m)
        (clients.getD req.fromCl default).secret = true := by
  rcases hmoff : attrgetBuf buf 20 ((RADLEN buf : Int) - 20)
      RAD_Attr_Message_Authenticator with _ | m
  · -- no Message-Authenticator in the reply
    simp only [clientrdStep, hmoff] at h
    split at h
    · exact absurd h (by simp)
    split at h
    · exact absurd h (by simp)
    rename_i req' hreq'
    obtain rfl : req = req' :=
      Option.some.inj (hreq.symm.trans hreq')
    split at h
    · exact absurd h (by simp)
    split at h
    · exact absurd h (by simp)
    split at h
    · exact absurd h (by simp)
    split at h
    · exact absurd h (by simp)
    split at h
    · exact absurd h (by simp)
    split at h
    · exact absurd h (by simp)
    split at h
    · exact absurd h (by simp)
    rename_i buf2 hscan
    simp only [clientrdFinish] at h
    injection h with h1 h2 h3
    subst h2
    have hlen2 : buf2.length = buf.length :=
      length_mppescan md5 hok _ _ _ _ _ _ _ _ _ hscan
    have hsetlen : (buf2.set 1 req.origid).length = buf.length := by
      simp [hlen2]
    refine ⟨?_, ?_, ?_⟩
    · rw [getD_spliceAt_lt (by omega) (by omega)]
      rw [List.getD_eq_getElem?_getD,
        List.getElem?_set_self (by omega)]
      rfl
    · have h16 : (4 : Nat) + req.origauth.length ≤
          (buf2.set 1 req.origid).length := by
        rw [horiglen, hsetlen]
        omega
      have := @readAt_spliceAt_self (buf2.set 1 req.origid)
        req.origauth 4 h16
      rwa [horiglen] at this
    · intro m hm'
      exact Option.noConfusion hm'
  · -- the reply carries a Message-Authenticator at offset m
    simp only [clientrdStep, hmoff] at h
    split at h
    · exact absurd h (by simp)
    split at h
    · exact absurd h (by simp)
    rename_i req' hreq'
    obtain rfl : req = req' :=
      Option.some.inj (hreq.symm.trans hreq')
    split at h
    · exact absurd h (by simp)
    split at h
    · exact absurd h (by simp)
    split at h
    · exact absurd h (by simp)
    split at h
    · exact absurd h (by simp)
    split at h
    · exact absurd h (by simp)
    split at h
    · exact absurd h (by simp)
    split at h
    · exact absurd h (by simp)
    split at h
    · exact absurd h (by simp)
    rename_i buf2 hscan
    simp only [clientrdFinish] at h
    split at h
    · exact absurd h (by simp)
    rename_i buf4 hcm
    injection h with h1 h2 h3
    subst h2
    obtain ⟨hm20, hm18⟩ := hmabound m hmoff
    have hlen2 : buf2.length = buf.length :=
      length_mppescan md5 hok _ _ _ _ _ _ _ _ _ hscan
    have hsetlen : (buf2.set 1 req.origid).length = buf.length := by
      simp [hlen2]
    have hbuf3len :
        (spliceAt (buf2.set 1 req.origid) 4 req.origauth).length =
          buf.length := by
      rw [length_spliceAt (by rw [horiglen, hsetlen]; omega), hsetlen]
    have hin3 : attrvalOff m + 16 ≤
        (spliceAt (buf2.set 1 req.origid) 4 req.origauth).length := by
      rw [hbuf3len]
      simp only [attrvalOff]
      omega
    refine ⟨?_, ?_, ?_⟩
    · rw [getD_createmessageauth_lt hm (by simp only [attrvalOff]; omega)
        (by omega) hcm]
      rw [getD_spliceAt_lt (by omega) (by omega)]
      rw [List.getD_eq_getElem?_getD,
        List.getElem?_set_self (by omega)]
      rfl
    · rw [readAt_createmessageauth_before hm
        (by simp only [attrvalOff]; omega) hin3 hcm]
      have h16 : (4 : Nat) + req.origauth.length ≤
          (buf2.set 1 req.origid).length := by
        rw [horiglen, hsetlen]
        omega
      have := @readAt_spliceAt_self (buf2.set 1 req.origid)
        req.origauth 4 h16
      rwa [horiglen] at this
    · intro m' hm'
      obtain rfl : m = m' := Option.some.inj hm'
      exact check_of_create hm (by simp only [attrvalOff]; omega) hin3 hcm

/-- An Access-Accept with a Message-Authenticator attribute whose value
verifies (under `testhmac`, with the stored request's authenticator
substituted) and whose Response Authenticator verifies under `testmd5`,
addressed to slot 5 of `c5srv`. -/
def c6reply : List Nat :=
  [2, 5, 0, 38] ++ List.replicate 16 34 ++ [80, 18] ++ List.replicate 16 135

/-- The buffer `clientrd` delivers for `c6reply`: id restored to 9,
authenticator restored to 4s, Message-Authenticator recomputed under the
client's secret `[7]`. -/
def c6out : List Nat :=
  [2, 9, 0, 38] ++ List.replicate 16 4 ++ [80, 18] ++ List.replicate 16 211

/-- Witness for C6 at a concrete delivered reply. -/
theorem C6_clientrd_reply_restores_origin_witness :
    c6out.getD 1 0 = c5req.origid ∧ readAt c6out 4 16 = c5req.origauth ∧
    ∀ m, attrgetBuf c6reply 20 ((RADLEN c6reply : Int) - 20)
        RAD_Attr_Message_Authenticator = some m →
      checkmessageauth testhmac c6out (attrvalOff m)
        (wclients.getD c5req.fromCl default).secret = true :=
  C6_clientrd_reply_restores_origin testmd5 testhmac wclients c5srv
    c6reply c5req 0 c6out true (fun x => by simp [testmd5]) (by decide)
    (by decide) (by decide)
    (by
      intro m hm'
      have h0 : attrgetBuf c6reply 20 ((RADLEN c6reply : Int) - 20)
          RAD_Attr_Message_Authenticator = some 20 := by decide
      obtain rfl : (20 : Nat) = m := Option.some.inj (h0.symm.trans hm')
      decide)
    (by decide)

end Radsec
